import Mathlib

/-!
Verification of the OpenAPI/cURL normalization pipeline of the
API-documentation backend.

The Python services are shallowly embedded: JSON/YAML documents become the
inductive type `PyVal` (dicts are insertion-ordered association lists),
fallible code returns `Except`, and the stdlib pieces the services rely on
(`re` searches for the specific patterns used, `urllib.parse`, `json`,
`ast.literal_eval` of a single-quoted literal, `yaml.safe_load`) are modelled
by executable Lean functions restricted to the constructs the code exercises.
-/

/-- A Python value as it appears in parsed JSON/YAML documents.  Dicts are
insertion-ordered association lists (Python 3.7+ semantics).  Floats are kept
as their literal text: no claim inspects float arithmetic, only the runtime
kind of the value. -/
inductive PyVal where
  | vnone : PyVal
  | vbool : Bool → PyVal
  | vint : Int → PyVal
  | vfloat : String → PyVal
  | vstr : String → PyVal
  | vlist : List PyVal → PyVal
  | vdict : List (String × PyVal) → PyVal

open PyVal

/-- Python `d[key]` / `key in d` lookup on an insertion-ordered dict. -/
def dictGet : List (String × PyVal) → String → Option PyVal
  | [], _ => none
  | (k, v) :: rest, key => if k = key then some v else dictGet rest key

/-- Python `d[key] = v`: overwrite in place (keeping the key's original
position) or append at the end. -/
def dictSet : List (String × PyVal) → String → PyVal → List (String × PyVal)
  | [], key, v => [(key, v)]
  | (k, w) :: rest, key, v =>
    if k = key then (k, v) :: rest else (k, w) :: dictSet rest key v

/-- Python truthiness of the values the services branch on.  A float is
modelled as truthy (the documents the pipeline branches on never place a
float where truthiness is tested). -/
def pyTruthy : PyVal → Bool
  | vnone => false
  | vbool b => b
  | vint n => n ≠ 0
  | vfloat _ => true
  | vstr s => s ≠ ""
  | vlist xs => !xs.isEmpty
  | vdict kvs => !kvs.isEmpty

/-- Python `str.split(sep)` for a one-character separator, on char lists:
`"".split(c) = [""]`, empty pieces are kept. -/
def pySplitChar (sep : Char) : List Char → List (List Char)
  | [] => [[]]
  | c :: rest =>
    let r := pySplitChar sep rest
    if c = sep then [] :: r
    else
      match r with
      | h :: t => (c :: h) :: t
      | [] => [[c]]

/-- `resolve_ref`'s traversal loop: successive key lookups through nested
dicts, `none` as soon as a segment is missing or the current value is not a
dict (the source's `isinstance(ref_obj, dict) and part in ref_obj` test). -/
def refTraverse : List String → PyVal → Option PyVal
  | [], obj => some obj
  | part :: rest, vdict kvs =>
    match dictGet kvs part with
    | some v => refTraverse rest v
    | none => none
  | _ :: _, _ => none

/-- The ref-string's segment list: drop the `#/` and split the remainder on
`/` (Python `ref[2:].split("/")`). -/
def refParts (ref : String) : List String :=
  (pySplitChar '/' (ref.data.drop 2)).map String.mk

/-- Does the ref string start with `#/`? (Python `ref.startswith("#/")`). -/
def startsWithHashSlash (ref : String) : Bool :=
  match ref.data with
  | '#' :: '/' :: _ => true
  | _ => false

/-- `resolve_ref` of `app/services/openapi_parser.py`: resolve a `#/a/b/c`
pointer by sequential key lookup; any failure, a non-`#/` prefix, or a
non-dict final target yields the empty dict.  The embedding is a total
function: the source returns on every path and raises nowhere. -/
def resolve_ref (ref : String) (openapi_spec : PyVal) : PyVal :=
  if startsWithHashSlash ref then
    match refTraverse (refParts ref) openapi_spec with
    | some (vdict kvs) => vdict kvs
    | _ => vdict []
  else
    vdict []

/-- `C3`: for every ref string of the form `#/a/b/...` whose successive
segments resolve through nested mappings to a mapping, `resolve_ref` returns
exactly that mapping; for every other ref string (no `#/` prefix, a missing
segment, a non-mapping intermediate, or a non-mapping final target) it
returns the empty object.  The embedding being a total function, it returns
on all inputs (the source raises nowhere). -/
theorem resolve_ref_correct (ref : String) (doc : PyVal) :
    (∀ kvs, startsWithHashSlash ref = true →
      refTraverse (refParts ref) doc = some (vdict kvs) →
      resolve_ref ref doc = vdict kvs)
    ∧ ((startsWithHashSlash ref = false ∨
        ∀ kvs, refTraverse (refParts ref) doc ≠ some (vdict kvs)) →
      resolve_ref ref doc = vdict []) := by
  constructor
  · intro kvs hpre htrav
    simp [resolve_ref, hpre, htrav]
  · intro h
    rcases h with h | h
    · simp [resolve_ref, h]
    · unfold resolve_ref
      by_cases hpre : startsWithHashSlash ref = true
      · rw [if_pos hpre]
        cases hm : refTraverse (refParts ref) doc with
        | none => rfl
        | some v =>
          cases v with
          | vdict kvs => exact absurd hm (h kvs)
          | vnone => rfl
          | vbool b => rfl
          | vint n => rfl
          | vfloat s => rfl
          | vstr s => rfl
          | vlist xs => rfl
      · rw [if_neg hpre]

/-- `C3` witness: a concrete successful resolution together with a concrete
failure (missing segment). -/
theorem resolve_ref_correct_witness :
    resolve_ref "#/components/schemas/User"
      (vdict [("components", vdict [("schemas",
        vdict [("User", vdict [("type", vstr "object")])])])])
      = vdict [("type", vstr "object")]
    ∧ resolve_ref "#/components/schemas/Missing"
      (vdict [("components", vdict [("schemas",
        vdict [("User", vdict [("type", vstr "object")])])])])
      = vdict [] := by
  constructor
  · exact (resolve_ref_correct "#/components/schemas/User" _).1
      [("type", vstr "object")] (by rfl) (by rfl)
  · exact (resolve_ref_correct "#/components/schemas/Missing" _).2
      (Or.inr (by intro kvs h; simp [refTraverse, refParts, pySplitChar, dictGet] at h))

/-! ### String and stdlib models used by `curl_parser.py` -/

/-- ASCII model of Python's `\w` character class. -/
def isWordChar (c : Char) : Bool := c.isAlphanum || c = '_'

/-- Python whitespace (`\s`, `str.strip()` / `str.isspace()` ASCII model). -/
def isPySpace (c : Char) : Bool :=
  c = ' ' || c = '\t' || c = '\n' || c = '\x0d' || c = '\x0b' || c = '\x0c'

/-- The two quote characters of the `['\x22\x27]`-style character classes in
the cURL regexes. -/
def isQuoteChar (c : Char) : Bool := c = '\x27' || c = '"'

/-- Consume an exact literal, returning the remainder. -/
def dropLit : List Char → List Char → Option (List Char)
  | [], cs => some cs
  | _ :: _, [] => none
  | l :: ls, c :: cs => if c = l then dropLit ls cs else none

/-- ASCII `str.upper()`. -/
def pyUpper (s : String) : String := String.mk (s.data.map Char.toUpper)

/-- ASCII `str.lower()`. -/
def pyLower (s : String) : String := String.mk (s.data.map Char.toLower)

/-- `str.capitalize()`: first character upper-cased, the rest lower-cased. -/
def pyCapitalize (s : String) : String :=
  match s.data with
  | [] => ""
  | c :: rest => String.mk (Char.toUpper c :: rest.map Char.toLower)

/-- `str.strip(chars)` on char lists: drop matching characters from both
ends. -/
def stripCharList (p : Char → Bool) (cs : List Char) : List Char :=
  ((cs.dropWhile p).reverse.dropWhile p).reverse

/-- `str.strip()` (whitespace). -/
def pyStripWs (s : String) : String := String.mk (stripCharList isPySpace s.data)

/-- `str.isdigit()` (ASCII model): non-empty and all digits. -/
def pyIsDigit (s : String) : Bool := !s.data.isEmpty && s.data.all Char.isDigit

/-- Split at the first occurrence of `sep` (Python `split(sep, 1)` when the
separator occurs); `none` when absent. -/
def splitAtFirst (sep : Char) : List Char → Option (List Char × List Char)
  | [] => none
  | c :: rest =>
    if c = sep then some ([], rest)
    else
      match splitAtFirst sep rest with
      | some (a, b) => some (c :: a, b)
      | none => none

/-- Split at the last occurrence of `sep`; `none` when absent. -/
def splitAtLast (sep : Char) (cs : List Char) : Option (List Char × List Char) :=
  match splitAtFirst sep cs.reverse with
  | some (a, b) => some (b.reverse, a.reverse)
  | none => none

/-- Lookup in a string-valued dict (`headers.get`). -/
def strDictGet : List (String × String) → String → Option String
  | [], _ => none
  | (k, v) :: rest, key => if k = key then some v else strDictGet rest key

/-- `d[k] = v` on a string-valued dict: overwrite keeping position, else
append. -/
def strDictSet : List (String × String) → String → String → List (String × String)
  | [], key, v => [(key, v)]
  | (k, w) :: rest, key, v =>
    if k = key then (k, v) :: rest else (k, w) :: strDictSet rest key v

/-- Hex digit value. -/
def hexVal (c : Char) : Option Nat :=
  let n := c.toNat
  if 48 ≤ n && n ≤ 57 then some (n - 48)
  else if 97 ≤ n && n ≤ 102 then some (n - 87)
  else if 65 ≤ n && n ≤ 70 then some (n - 55)
  else none

/-- Octal digit value. -/
def octVal (c : Char) : Option Nat :=
  if '0' ≤ c && c ≤ '7' then some (c.toNat - '0'.toNat) else none

/-- `urllib.parse.unquote_plus` (ASCII model): `+` becomes a space, `%XX`
becomes the character with that code; a malformed percent escape is kept
verbatim.  Multi-byte UTF-8 percent sequences are modelled as the individual
bytes' code points (no claim exercises them). -/
def unquotePlusChars : List Char → List Char
  | [] => []
  | '+' :: rest => ' ' :: unquotePlusChars rest
  | '%' :: a :: b :: rest =>
    match hexVal a, hexVal b with
    | some ha, some hb => Char.ofNat (16 * ha + hb) :: unquotePlusChars rest
    | _, _ => '%' :: unquotePlusChars (a :: b :: rest)
  | c :: rest => c :: unquotePlusChars rest

/-- `urllib.parse.unquote_plus` on strings. -/
def unquote_plus (s : String) : String := String.mk (unquotePlusChars s.data)

/-- `urllib.parse.parse_qsl` with the default settings in force
(`keep_blank_values=False`, separator `&`): empty pieces are skipped, pieces
without `=` or with an empty value are skipped, names and values are
`unquote_plus`-decoded. -/
def parse_qsl (qs : List Char) : List (String × String) :=
  (pySplitChar '&' qs).filterMap fun piece =>
    if piece.isEmpty then none
    else
      match splitAtFirst '=' piece with
      | none => none
      | some (n, v) =>
        if v.isEmpty then none
        else some (String.mk (unquotePlusChars n), String.mk (unquotePlusChars v))

/-- Append a value to a key's list in a `parse_qs`-style dict. -/
def qsInsert : List (String × List String) → String → String → List (String × List String)
  | [], k, v => [(k, [v])]
  | (k0, vs) :: rest, k, v =>
    if k0 = k then (k0, vs ++ [v]) :: rest else (k0, vs) :: qsInsert rest k v

/-- `urllib.parse.parse_qs`: aggregate the `parse_qsl` pairs into an
insertion-ordered dict of value lists. -/
def parse_qs (qs : String) : List (String × List String) :=
  (parse_qsl qs.data).foldl (fun acc kv => qsInsert acc kv.1 kv.2) []

/-- Scheme characters after the first letter (`urllib.parse`). -/
def isSchemeChar (c : Char) : Bool := c.isAlphanum || c = '+' || c = '-' || c = '.'

/-- The result of `urllib.parse.urlparse`. -/
structure UrlParts where
  scheme : String
  netloc : String
  path : String
  params : String
  query : String
  fragment : String

/-- `urllib.parse.urlparse`: split the scheme at the first `:` (when the part
before it is a valid scheme), the netloc after `//` up to the first of
`/?#`, the fragment at the first `#`, the query at the first `?`, and the
`;params` of the last path segment. -/
def urlparse (url : String) : UrlParts :=
  let cs := url.data
  let schemeSplit : List Char × List Char :=
    match splitAtFirst ':' cs with
    | some (pre, post) =>
      match pre with
      | [] => ([], cs)
      | c0 :: others =>
        if c0.isAlpha && others.all isSchemeChar then (pre.map Char.toLower, post)
        else ([], cs)
    | none => ([], cs)
  let scheme := schemeSplit.1
  let rest := schemeSplit.2
  let netlocSplit : List Char × List Char :=
    match rest with
    | '/' :: '/' :: tl =>
      (tl.takeWhile (fun c => !(c = '/' || c = '?' || c = '#')),
       tl.dropWhile (fun c => !(c = '/' || c = '?' || c = '#')))
    | _ => ([], rest)
  let netloc := netlocSplit.1
  let rest2 := netlocSplit.2
  let fragSplit : List Char × List Char :=
    match splitAtFirst '#' rest2 with
    | some (a, b) => (a, b)
    | none => (rest2, [])
  let querySplit : List Char × List Char :=
    match splitAtFirst '?' fragSplit.1 with
    | some (a, b) => (a, b)
    | none => (fragSplit.1, [])
  let rest4 := querySplit.1
  let pathParams : List Char × List Char :=
    if rest4.contains ';' then
      if rest4.contains '/' then
        match splitAtLast '/' rest4 with
        | some (pre, lastSeg) =>
          match splitAtFirst ';' lastSeg with
          | some (a, b) => (pre ++ '/' :: a, b)
          | none => (rest4, [])
        | none => (rest4, [])
      else
        match splitAtFirst ';' rest4 with
        | some (a, b) => (a, b)
        | none => (rest4, [])
    else (rest4, [])
  { scheme := String.mk scheme, netloc := String.mk netloc,
    path := String.mk pathParams.1, params := String.mk pathParams.2,
    query := String.mk querySplit.2, fragment := String.mk fragSplit.2 }

/-! ### The `re` searches of `curl_parser.py`, embedded per pattern -/

/-- One attempt of `curl -X ['\x22\x27]?(\w+)['\x22\x27]?` at the current
position: the literal, an optional quote, then a non-empty word-character
run (group 1); the trailing optional quote never fails. -/
def matchMethodAt (cs : List Char) : Option (List Char) :=
  match dropLit "curl -X ".data cs with
  | none => none
  | some cs1 =>
    match cs1 with
    | [] => none
    | c :: rest =>
      if isQuoteChar c then
        let w := rest.takeWhile isWordChar
        if w.isEmpty then none else some w
      else
        let w := (c :: rest).takeWhile isWordChar
        if w.isEmpty then none else some w

/-- `re.search` for the method pattern: try every start position, leftmost
match wins. -/
def searchMethod : List Char → Option (List Char)
  | [] => none
  | c :: rest =>
    match matchMethodAt (c :: rest) with
    | some w => some w
    | none => searchMethod rest

/-- One attempt of `['\x22\x27](https?://[^'\x22]+)['\x22\x27]` at the
current position. -/
def matchUrlAt (cs : List Char) : Option (List Char) :=
  match cs with
  | [] => none
  | q :: rest =>
    if isQuoteChar q then
      match dropLit "http".data rest with
      | none => none
      | some cs1 =>
        let afterScheme : Option (List Char × List Char) :=
          match cs1 with
          | 's' :: cs2 =>
            match dropLit "://".data cs2 with
            | some cs3 => some ("https://".data, cs3)
            | none =>
              match dropLit "://".data cs1 with
              | some cs3 => some ("http://".data, cs3)
              | none => none
          | _ =>
            match dropLit "://".data cs1 with
            | some cs3 => some ("http://".data, cs3)
            | none => none
        match afterScheme with
        | none => none
        | some (pre, cs3) =>
          let body := cs3.takeWhile (fun c => !isQuoteChar c)
          let rest2 := cs3.dropWhile (fun c => !isQuoteChar c)
          if body.isEmpty then none
          else
            match rest2 with
            | c2 :: _ => if isQuoteChar c2 then some (pre ++ body) else none
            | [] => none
    else none

/-- `re.search` for the quoted-URL pattern. -/
def searchUrl : List Char → Option (List Char)
  | [] => none
  | c :: rest =>
    match matchUrlAt (c :: rest) with
    | some u => some u
    | none => searchUrl rest

/-- Close out the header value: `[^'\x22]+['\x22\x27]` starting at `cs`. -/
def headerValueAt (cs : List Char) : Option (List Char × List Char) :=
  let v := cs.takeWhile (fun c => !isQuoteChar c)
  let rest := cs.dropWhile (fun c => !isQuoteChar c)
  if v.isEmpty then none
  else
    match rest with
    | c2 :: rest2 => if isQuoteChar c2 then some (v, rest2) else none
    | [] => none

/-- One attempt of `-H ['\x22\x27]([^:]+):\s?([^'\x22]+)['\x22\x27]`: the
greedy optional whitespace after the colon backtracks when the value match
would fail with it consumed. -/
def matchHeaderAt (cs : List Char) : Option ((String × String) × List Char) :=
  match dropLit "-H ".data cs with
  | none => none
  | some cs1 =>
    match cs1 with
    | [] => none
    | q :: cs2 =>
      if isQuoteChar q then
        let key := cs2.takeWhile (fun c => !(c = ':'))
        let cs3 := cs2.dropWhile (fun c => !(c = ':'))
        if key.isEmpty then none
        else
          match cs3 with
          | ':' :: cs4 =>
            match cs4 with
            | w :: cs5 =>
              if isPySpace w then
                match headerValueAt cs5 with
                | some (v, rest) => some ((String.mk key, String.mk v), rest)
                | none =>
                  match headerValueAt (w :: cs5) with
                  | some (v, rest) => some ((String.mk key, String.mk v), rest)
                  | none => none
              else
                match headerValueAt (w :: cs5) with
                | some (v, rest) => some ((String.mk key, String.mk v), rest)
                | none => none
            | [] => none
          | _ => none
      else none

/-- `re.findall` for the header pattern: scan left to right, non-overlapping
matches, resuming after each match.  The fuel argument (instantiated with the
list length) only serves termination: every match consumes at least one
character. -/
def findHeadersFuel : Nat → List Char → List (String × String)
  | 0, _ => []
  | _, [] => []
  | Nat.succ f, c :: rest =>
    match matchHeaderAt (c :: rest) with
    | some (kv, after) => kv :: findHeadersFuel f after
    | none => findHeadersFuel f rest

/-- `dict(re.findall(...))` over the whole command: later duplicate keys
overwrite, the first occurrence keeps its position. -/
def curlHeaders (curl : String) : List (String × String) :=
  (findHeadersFuel curl.data.length curl.data).foldl
    (fun d kv => strDictSet d kv.1 kv.2) []

/-- The tail of `-d\s+'((?:\\\x27|[^\x27])*)'` after the opening quote:
greedy repetition preferring the escaped-quote alternative, with the
backtracking step that re-reads a backslash as a plain character when no
closing quote would otherwise be found. -/
def matchDBodyTail : List Char → Option (List Char × List Char)
  | [] => none
  | '\x27' :: rest => some ([], rest)
  | '\\' :: '\x27' :: rest =>
    (match matchDBodyTail rest with
     | some (g, r) => some ('\\' :: '\x27' :: g, r)
     | none => some (['\\'], rest))
  | c :: rest =>
    match matchDBodyTail rest with
    | some (g, r) => some (c :: g, r)
    | none => none

/-- One attempt of the `-d` pattern at the current position: the literal,
at least one whitespace character, an opening single quote, then the body
group. -/
def matchDAt (cs : List Char) : Option (List Char) :=
  match dropLit "-d".data cs with
  | none => none
  | some cs1 =>
    let ws := cs1.takeWhile isPySpace
    let cs2 := cs1.dropWhile isPySpace
    if ws.isEmpty then none
    else
      match cs2 with
      | '\x27' :: cs3 => (matchDBodyTail cs3).map (fun p => p.1)
      | _ => none

/-- `re.search` for the `-d` body pattern. -/
def searchD : List Char → Option (List Char)
  | [] => none
  | c :: rest =>
    match matchDAt (c :: rest) with
    | some g => some g
    | none => searchD rest

/-! ### `json.loads` model -/

/-- JSON whitespace. -/
def skipJsonWs (cs : List Char) : List Char :=
  cs.dropWhile (fun c => c = ' ' || c = '\t' || c = '\n' || c = '\x0d')

/-- The single-character JSON string escapes. -/
def jsonEscChar (e : Char) : Option Char :=
  if e = '"' then some '"'
  else if e = '\\' then some '\\'
  else if e = '/' then some '/'
  else if e = 'b' then some '\x08'
  else if e = 'f' then some '\x0c'
  else if e = 'n' then some '\n'
  else if e = 'r' then some '\x0d'
  else if e = 't' then some '\t'
  else none

/-- The tail of a JSON string after the opening quote: characters up to the
closing quote, with the `\x22 \\ / b f n r t uXXXX` escapes; control
characters and unknown escapes are rejected (strict mode).  `\uXXXX` is
modelled as the code point itself (surrogate pairs are not recombined; no
claim exercises them). -/
def jsonStringTail : List Char → Option (List Char × List Char)
  | [] => none
  | '"' :: rest => some ([], rest)
  | '\\' :: 'u' :: a :: b :: c :: d :: tl =>
    (match hexVal a, hexVal b, hexVal c, hexVal d with
     | some ha, some hb, some hc, some hd =>
       (match jsonStringTail tl with
        | some (g, r) => some (Char.ofNat (4096 * ha + 256 * hb + 16 * hc + hd) :: g, r)
        | none => none)
     | _, _, _, _ => none)
  | '\\' :: e :: rest =>
    (match jsonEscChar e with
     | some c =>
       (match jsonStringTail rest with
        | some (g, r) => some (c :: g, r)
        | none => none)
     | none => none)
  | c :: rest =>
    if c.toNat < 32 then none
    else
      match jsonStringTail rest with
      | some (g, r) => some (c :: g, r)
      | none => none

/-- Digit run to a natural number. -/
def digitsToNat (ds : List Char) : Nat :=
  ds.foldl (fun acc c => 10 * acc + (c.toNat - '0'.toNat)) 0

/-- Optional exponent part `[eE][-+]?\d+`; `none` when no well-formed
exponent starts here. -/
def jsonExpPart (cs : List Char) : Option (List Char × List Char) :=
  match cs with
  | c :: rest =>
    if c = 'e' || c = 'E' then
      match rest with
      | s :: tl =>
        if s = '+' || s = '-' then
          let ds := tl.takeWhile Char.isDigit
          if ds.isEmpty then none
          else some (c :: s :: ds, tl.dropWhile Char.isDigit)
        else
          let ds := rest.takeWhile Char.isDigit
          if ds.isEmpty then none
          else some (c :: ds, rest.dropWhile Char.isDigit)
      | [] => none
    else none
  | [] => none

/-- A JSON number per `json`'s `NUMBER_RE`: `-?(0|[1-9]\d*)(\.\d+)?([eE][-+]?\d+)?`.
An integer literal yields a Python `int`, a fraction or exponent a `float`
(kept as its literal text). -/
def parseJsonNumber (cs : List Char) : Option (PyVal × List Char) :=
  let negSplit : Bool × List Char :=
    match cs with
    | '-' :: tl => (true, tl)
    | _ => (false, cs)
  let neg := negSplit.1
  let cs1 := negSplit.2
  let intDigits := cs1.takeWhile Char.isDigit
  let cs2 := cs1.dropWhile Char.isDigit
  if intDigits.isEmpty then none
  else if intDigits.length > 1 && intDigits.headD '0' = '0' then none
  else
    let sign : List Char := if neg then ['-'] else []
    match cs2 with
    | '.' :: tl =>
      let fr := tl.takeWhile Char.isDigit
      if fr.isEmpty then
        -- no fraction digits: the number ends before the dot
        (match jsonExpPart cs2 with
         | some (e, cs3) => some (vfloat (String.mk (sign ++ intDigits ++ e)), cs3)
         | none =>
           let n : Int := Int.ofNat (digitsToNat intDigits)
           some (vint (if neg then -n else n), cs2))
      else
        let cs3 := tl.dropWhile Char.isDigit
        (match jsonExpPart cs3 with
         | some (e, cs4) =>
           some (vfloat (String.mk (sign ++ intDigits ++ '.' :: fr ++ e)), cs4)
         | none => some (vfloat (String.mk (sign ++ intDigits ++ '.' :: fr)), cs3))
    | _ =>
      (match jsonExpPart cs2 with
       | some (e, cs3) => some (vfloat (String.mk (sign ++ intDigits ++ e)), cs3)
       | none =>
         let n : Int := Int.ofNat (digitsToNat intDigits)
         some (vint (if neg then -n else n), cs2))

mutual

/-- One JSON value (with leading whitespace), fuel-bounded: `json.loads`'s
recursive descent with the default hooks, including the `NaN`/`Infinity`
constants. -/
def parseJsonValue : Nat → List Char → Option (PyVal × List Char)
  | 0, _ => none
  | Nat.succ f, cs0 =>
    let cs := skipJsonWs cs0
    match cs with
    | '"' :: rest =>
      (match jsonStringTail rest with
       | some (g, r) => some (vstr (String.mk g), r)
       | none => none)
    | '\x7b' :: rest =>
      let cs1 := skipJsonWs rest
      (match cs1 with
       | '\x7d' :: tl => some (vdict [], tl)
       | _ => parseJsonMembers f cs1 [])
    | '[' :: rest =>
      let cs1 := skipJsonWs rest
      (match cs1 with
       | ']' :: tl => some (vlist [], tl)
       | _ => parseJsonItems f cs1 [])
    | 't' :: rest =>
      (match dropLit "rue".data rest with
       | some r => some (vbool true, r)
       | none => none)
    | 'f' :: rest =>
      (match dropLit "alse".data rest with
       | some r => some (vbool false, r)
       | none => none)
    | 'n' :: rest =>
      (match dropLit "ull".data rest with
       | some r => some (vnone, r)
       | none => none)
    | 'N' :: rest =>
      (match dropLit "aN".data rest with
       | some r => some (vfloat "nan", r)
       | none => none)
    | 'I' :: rest =>
      (match dropLit "nfinity".data rest with
       | some r => some (vfloat "inf", r)
       | none => none)
    | '-' :: 'I' :: rest =>
      (match dropLit "nfinity".data rest with
       | some r => some (vfloat "-inf", r)
       | none => none)
    | _ => parseJsonNumber cs

/-- Object members after the opening brace (non-empty case): key string,
colon, value, then comma or closing brace.  Duplicate keys overwrite
(`dict` assignment), keeping the first occurrence's position. -/
def parseJsonMembers : Nat → List Char → List (String × PyVal) →
    Option (PyVal × List Char)
  | 0, _, _ => none
  | Nat.succ f, cs, acc =>
    match skipJsonWs cs with
    | '"' :: rest =>
      (match jsonStringTail rest with
       | some (k, r1) =>
         (match skipJsonWs r1 with
          | ':' :: r2 =>
            (match parseJsonValue f r2 with
             | some (v, r3) =>
               let acc1 := dictSet acc (String.mk k) v
               (match skipJsonWs r3 with
                | ',' :: r4 => parseJsonMembers f r4 acc1
                | '\x7d' :: r4 => some (vdict acc1, r4)
                | _ => none)
             | none => none)
          | _ => none)
       | none => none)
    | _ => none

/-- Array items after the opening bracket (non-empty case). -/
def parseJsonItems : Nat → List Char → List PyVal → Option (PyVal × List Char)
  | 0, _, _ => none
  | Nat.succ f, cs, acc =>
    match parseJsonValue f cs with
    | some (v, r1) =>
      (match skipJsonWs r1 with
       | ',' :: r2 => parseJsonItems f r2 (acc ++ [v])
       | ']' :: r2 => some (vlist (acc ++ [v]), r2)
       | _ => none)
    | none => none

end

/-- `json.loads`: parse one JSON value and require only whitespace after it.
Every failure is a `JSONDecodeError` (modelled as `.error`). -/
def jsonLoads (s : String) : Except String PyVal :=
  match parseJsonValue (s.data.length + 1) s.data with
  | some (v, rest) =>
    if (skipJsonWs rest).isEmpty then Except.ok v else Except.error "Extra data"
  | none => Except.error "Expecting value"

/-! ### `ast.literal_eval` of a single-quoted string literal -/

/-- `ast.literal_eval("'<raw>'")` as used on the `-d` body: process the
escape sequences of a Python single-quoted string literal.  `none` models
the exception cases: an unescaped single quote or raw line break inside the
literal, a truncated or malformed `\x`/`\u`/`\U` escape, a `\N` named
escape (modelled as failure), or a trailing backslash.  Unknown escapes keep
the backslash and the character; `\<newline>` is a line continuation. -/
def pyUnescapeFuel : Nat → List Char → Option (List Char)
  | 0, _ => none
  | _, [] => some []
  | _, '\n' :: _ => none
  | _, '\x0d' :: _ => none
  | _, '\x27' :: _ => none
  | Nat.succ f, '\\' :: rest =>
    (match rest with
     | [] => none
     | '\n' :: tl => pyUnescapeFuel f tl
     | '\x0d' :: '\n' :: tl => pyUnescapeFuel f tl
     | '\x0d' :: tl => pyUnescapeFuel f tl
     | '\\' :: tl => (pyUnescapeFuel f tl).map (fun g => '\\' :: g)
     | '\x27' :: tl => (pyUnescapeFuel f tl).map (fun g => '\x27' :: g)
     | '"' :: tl => (pyUnescapeFuel f tl).map (fun g => '"' :: g)
     | 'n' :: tl => (pyUnescapeFuel f tl).map (fun g => '\n' :: g)
     | 't' :: tl => (pyUnescapeFuel f tl).map (fun g => '\t' :: g)
     | 'r' :: tl => (pyUnescapeFuel f tl).map (fun g => '\x0d' :: g)
     | 'a' :: tl => (pyUnescapeFuel f tl).map (fun g => '\x07' :: g)
     | 'b' :: tl => (pyUnescapeFuel f tl).map (fun g => '\x08' :: g)
     | 'f' :: tl => (pyUnescapeFuel f tl).map (fun g => '\x0c' :: g)
     | 'v' :: tl => (pyUnescapeFuel f tl).map (fun g => '\x0b' :: g)
     | 'x' :: a :: b :: tl =>
       (match hexVal a, hexVal b with
        | some ha, some hb =>
          (pyUnescapeFuel f tl).map (fun g => Char.ofNat (16 * ha + hb) :: g)
        | _, _ => none)
     | 'x' :: _ => none
     | 'u' :: a :: b :: c :: d :: tl =>
       (match hexVal a, hexVal b, hexVal c, hexVal d with
        | some ha, some hb, some hc, some hd =>
          (pyUnescapeFuel f tl).map
            (fun g => Char.ofNat (4096 * ha + 256 * hb + 16 * hc + hd) :: g)
        | _, _, _, _ => none)
     | 'u' :: _ => none
     | 'U' :: a :: b :: c :: d :: e :: f2 :: g2 :: h2 :: tl =>
       (match hexVal a, hexVal b, hexVal c, hexVal d,
              hexVal e, hexVal f2, hexVal g2, hexVal h2 with
        | some ha, some hb, some hc, some hd, some he, some hf, some hg, some hh =>
          (pyUnescapeFuel f tl).map (fun g =>
            Char.ofNat (((((((ha * 16 + hb) * 16 + hc) * 16 + hd) * 16 + he) * 16
              + hf) * 16 + hg) * 16 + hh) :: g)
        | _, _, _, _, _, _, _, _ => none)
     | 'U' :: _ => none
     | 'N' :: _ => none
     | o1 :: tl =>
       (match octVal o1 with
        | some d1 =>
          (match tl with
           | o2 :: tl2 =>
             (match octVal o2 with
              | some d2 =>
                (match tl2 with
                 | o3 :: tl3 =>
                   (match octVal o3 with
                    | some d3 =>
                      (pyUnescapeFuel f tl3).map
                        (fun g => Char.ofNat (64 * d1 + 8 * d2 + d3) :: g)
                    | none =>
                      (pyUnescapeFuel f tl2).map
                        (fun g => Char.ofNat (8 * d1 + d2) :: g))
                 | [] =>
                   (pyUnescapeFuel f tl2).map
                     (fun g => Char.ofNat (8 * d1 + d2) :: g))
              | none => (pyUnescapeFuel f tl).map (fun g => Char.ofNat d1 :: g))
           | [] => (pyUnescapeFuel f tl).map (fun g => Char.ofNat d1 :: g))
        | none => (pyUnescapeFuel f tl).map (fun g => '\\' :: o1 :: g)))
  | Nat.succ f, c :: rest => (pyUnescapeFuel f rest).map (fun g => c :: g)

/-- `pyUnescapeFuel` at adequate fuel (every step consumes at least one
character). -/
def pyUnescape (cs : List Char) : Option (List Char) :=
  pyUnescapeFuel (cs.length + 1) cs

/-! ### `parse_curl` of `app/services/curl_parser.py` -/

/-- The canonical endpoint record returned by `parse_curl`.  The source
returns `request_body` as `json.dumps` of the dict built in the body; the
embedding keeps the dict itself (the serialization is injective glue). -/
structure CurlResult where
  method : String
  base_url : String
  path : String
  headers : List (String × String)
  body : Option String
  parameters : List PyVal
  requires_auth : Bool
  request_body : Option PyVal

/-- `re.match(r"v\d+", s)`: a prefix `v` followed by at least one digit. -/
def isVersionSeg (s : String) : Bool :=
  match s.data with
  | 'v' :: c :: _ => c.isDigit
  | _ => false

/-- `"/".join` of the path segments. -/
def joinSlash : List String → String
  | [] => ""
  | [s] => s
  | s :: rest => s ++ "/" ++ joinSlash rest

/-- The `type(value).__name__` table of the JSON body branch: unmapped
runtime kinds (`NoneType`) default to `"string"`. -/
def jsonTypeName : PyVal → String
  | vstr _ => "string"
  | vint _ => "integer"
  | vfloat _ => "number"
  | vbool _ => "boolean"
  | vlist _ => "array"
  | vdict _ => "object"
  | vnone => "string"

/-- The query-parameter descriptors of `parse_curl` (one per `parse_qs`
entry, in insertion order). -/
def curlParameters (query_params : List (String × List String)) : List PyVal :=
  query_params.map fun kv =>
    let param_value := match kv.2 with | v :: _ => v | [] => ""
    let param_type :=
      if pyIsDigit param_value then "integer"
      else if pyLower param_value = "true" || pyLower param_value = "false" then "boolean"
      else "string"
    vdict [("name", vstr kv.1), ("in", vstr "query"), ("required", vbool true),
           ("schema", vdict [("type", vstr param_type), ("example", vstr param_value)]),
           ("description", vstr ("Query parameter " ++ kv.1))]

/-- The structured body of the form-urlencoded branch. -/
def curlFormBody (raw_body : String) : PyVal :=
  let parsed := parse_qs raw_body
  let props := parsed.foldl
    (fun acc kv => dictSet acc kv.1
      (vdict [("type", vstr "string"), ("title", vstr (pyCapitalize kv.1)),
              ("example", vstr (match kv.2 with
                | v :: _ => unquote_plus v
                | [] => ""))]))
    []
  vdict [("type", vstr "object"), ("properties", vdict props),
         ("required", vlist (parsed.map (fun kv => vstr kv.1)))]

/-- The structured body of the JSON branch, given the parsed top-level
object's items. -/
def curlJsonBody (kvs : List (String × PyVal)) : PyVal :=
  let props := kvs.foldl
    (fun acc kv => dictSet acc kv.1
      (vdict [("type", vstr (jsonTypeName kv.2)), ("title", vstr (pyCapitalize kv.1)),
              ("example", kv.2)]))
    []
  vdict [("type", vstr "object"), ("properties", vdict props),
         ("required", vlist (kvs.map (fun kv => vstr kv.1)))]

/-- The extracted method (`GET` default). -/
def curlMethod (curl : String) : String :=
  match searchMethod curl.data with
  | some w => pyUpper (String.mk w)
  | none => "GET"

/-- The matched full URL (empty when the pattern finds nothing). -/
def curlFullUrl (curl : String) : String :=
  match searchUrl curl.data with
  | some u => String.mk u
  | none => ""

/-- `raw_body`: the stripped `-d` group, after the attempted unescape (the
`ast.literal_eval` exception is swallowed and the raw text kept). -/
def curlRawBody (curl : String) : Option String :=
  match (searchD curl.data).map (fun g => pyStripWs (String.mk g)) with
  | some rb =>
    if rb ≠ "" then
      match pyUnescape rb.data with
      | some u => some (String.mk u)
      | none => some rb
    else some rb
  | none => none

/-- `headers.get("Content-Type", "")`. -/
def curlContentType (curl : String) : String :=
  (strDictGet (curlHeaders curl) "Content-Type").getD ""

/-- The `request_body` construction of `parse_curl`; `Except.error` is the
uncaught `AttributeError` on a JSON body that parses to a non-object. -/
def curlRequestBody (curl : String) : Except String (Option PyVal) :=
  let raw_body := curlRawBody curl
  let content_type := curlContentType curl
  let bodyText := raw_body.getD ""
  let bodyTruthy := raw_body.isSome && bodyText ≠ ""
  if bodyTruthy && content_type = "application/x-www-form-urlencoded" then
    Except.ok (some (curlFormBody bodyText))
  else if bodyTruthy && content_type = "application/json" then
    match jsonLoads bodyText with
    | Except.ok (vdict kvs) => Except.ok (some (curlJsonBody kvs))
    | Except.ok _ => Except.error "AttributeError: keys"
    | Except.error _ => Except.ok none
  else Except.ok none

/-- `parse_curl`: single-pass textual extraction.  `Except.error` models the
one uncaught exception path: a `-d` body with `Content-Type:
application/json` whose text parses as JSON but not as an object, on which
`json_obj.keys()` raises `AttributeError`.  A failed unescape is swallowed
(the raw text is kept); a JSON decode failure is swallowed (`request_body`
becomes `None`). -/
def parse_curl (curl : String) : Except String CurlResult :=
  let parsed_url := urlparse (curlFullUrl curl)
  let query_params := parse_qs parsed_url.query
  let path_parts :=
    (pySplitChar '/' (stripCharList (fun c => c = '/') parsed_url.path.data)).map String.mk
  let versionSeg := match path_parts with
    | p0 :: _ => if isVersionSeg p0 then p0 else ""
    | [] => ""
  let base_url := parsed_url.scheme ++ "://" ++ parsed_url.netloc
    ++ (if versionSeg ≠ "" then "/" ++ versionSeg else "")
  let path := "/" ++ joinSlash (if versionSeg ≠ "" then path_parts.tail else path_parts)
  let headers := curlHeaders curl
  match curlRequestBody curl with
  | Except.error e => Except.error e
  | Except.ok request_body =>
    Except.ok { method := curlMethod curl, base_url := base_url, path := path,
                headers := headers, body := curlRawBody curl,
                parameters := curlParameters query_params,
                requires_auth := (strDictGet headers "Authorization").isSome,
                request_body := request_body }

/-- The cURL command of `C1`. -/
def c1curl : String :=
  "curl -X POST \x27https://api.example.com/v1/users\x27 -H \x27Content-Type: application/json\x27 -H \x27Authorization: Bearer x\x27 -d \x27\x7b\"name\": \"Ann\", \"age\": 30\x7d\x27"

set_option maxRecDepth 10000 in
/-- `C1`: on the given command, `parse_curl` returns method `POST`, base URL
`https://api.example.com/v1` (the `v1` segment recognized as a version prefix
and moved into the base URL), path `/users`, `requires_auth = true`, and a
structured body whose `properties` declare exactly the two fields `name`
(string) and `age` (integer). -/
theorem parse_curl_c1 : parse_curl c1curl = Except.ok
    { method := "POST", base_url := "https://api.example.com/v1", path := "/users",
      headers := [("Content-Type", "application/json"), ("Authorization", "Bearer x")],
      body := some "\x7b\"name\": \"Ann\", \"age\": 30\x7d",
      parameters := [],
      requires_auth := true,
      request_body := some (vdict [("type", vstr "object"),
        ("properties", vdict [
          ("name", vdict [("type", vstr "string"), ("title", vstr "Name"),
            ("example", vstr "Ann")]),
          ("age", vdict [("type", vstr "integer"), ("title", vstr "Age"),
            ("example", vint 30)])]),
        ("required", vlist [vstr "name", vstr "age"])]) } := by rfl

/-! ### `openapi_parser.py`: schema flattening and endpoint extraction -/

/-- Is `needle` a contiguous substring of `hay`? -/
def charsLeadWith : List Char → List Char → Bool
  | [], _ => true
  | _ :: _, [] => false
  | a :: as_, b :: bs => a = b && charsLeadWith as_ bs

def isSubstr (needle : List Char) : List Char → Bool
  | [] => charsLeadWith needle []
  | c :: tl => charsLeadWith needle (c :: tl) || isSubstr needle tl

/-- Python `needle in container` for the container kinds the services meet:
key test on dicts, substring test on strings, element equality on lists
(non-string elements never equal a string); other kinds raise `TypeError`. -/
def pyIn (needle : String) : PyVal → Except String Bool
  | vdict kvs => Except.ok (dictGet kvs needle).isSome
  | vstr s => Except.ok (isSubstr needle.data s.data)
  | vlist xs => Except.ok (xs.any fun x =>
      match x with
      | vstr t => t = needle
      | _ => false)
  | _ => Except.error "TypeError: argument is not iterable"

/-- Python `obj.get(key, default)`: `AttributeError` on non-dicts. -/
def pyGet (obj : PyVal) (key : String) (default : PyVal) : Except String PyVal :=
  match obj with
  | vdict kvs => Except.ok ((dictGet kvs key).getD default)
  | _ => Except.error "AttributeError: get"

/-- Python `obj[key]` for a string key: `KeyError` when missing,
`TypeError` on non-dicts. -/
def pyGetItem (obj : PyVal) (key : String) : Except String PyVal :=
  match obj with
  | vdict kvs =>
    (match dictGet kvs key with
     | some v => Except.ok v
     | none => Except.error "KeyError")
  | _ => Except.error "TypeError: not subscriptable"

/-- Python `len`. -/
def pyLen : PyVal → Except String Nat
  | vstr s => Except.ok s.length
  | vlist xs => Except.ok xs.length
  | vdict kvs => Except.ok kvs.length
  | _ => Except.error "TypeError: len"

/-- The `schema = resolve_ref(...) if truthy else schema` step shared by the
schema-level and property-level `$ref` substitutions (`X or Y` semantics for
the property case, `if resolved:` for the schema case — both keep the
original on a falsy resolution).  The ref value must be a string
(`startswith` would raise otherwise). -/
def refSubstitute (obj : PyVal) (openapi_spec : PyVal) : Except String PyVal := do
  let hasRef ← pyIn "$ref" obj
  if hasRef then do
    let r ← pyGetItem obj "$ref"
    match r with
    | vstr refs =>
      let resolved := resolve_ref refs openapi_spec
      pure (if pyTruthy resolved then resolved else obj)
    | _ => Except.error "AttributeError: startswith"
  else pure obj

/-- One property descriptor of `extract_schema_properties`: the dict display
in source order followed by the `None`-dropping comprehension. -/
def propDescriptor (prop_name : String) (required : PyVal) (pkvs : List (String × PyVal)) :
    Except String PyVal := do
  let inReq ← pyIn prop_name required
  let raw : List (String × PyVal) :=
    [("type", (dictGet pkvs "type").getD (vstr "string")),
     ("required", vbool inReq),
     ("title", (dictGet pkvs "title").getD (vstr prop_name)),
     ("format", (dictGet pkvs "format").getD vnone),
     ("minLength", (dictGet pkvs "minLength").getD vnone),
     ("maxLength", (dictGet pkvs "maxLength").getD vnone),
     ("minimum", (dictGet pkvs "minimum").getD vnone),
     ("maximum", (dictGet pkvs "maximum").getD vnone),
     ("pattern", (dictGet pkvs "pattern").getD vnone),
     ("description", (dictGet pkvs "description").getD vnone)]
  pure (vdict (raw.filter fun kv =>
    match kv.2 with
    | vnone => false
    | _ => true))

/-- The property loop of `extract_schema_properties`. -/
def schemaPropLoop (openapi_spec : PyVal) (required : PyVal) :
    List (String × PyVal) → List (String × PyVal) → Except String (List (String × PyVal))
  | result, [] => Except.ok result
  | result, (prop_name, prop_schema0) :: rest => do
    let prop_schema ← refSubstitute prop_schema0 openapi_spec
    match prop_schema with
    | vdict pkvs => do
      let desc ← propDescriptor prop_name required pkvs
      schemaPropLoop openapi_spec required (dictSet result prop_name desc) rest
    | _ => Except.error "AttributeError: get"

/-- `extract_schema_properties` of `app/services/openapi_parser.py`:
substitute a schema-level `$ref`, then produce one `None`-filtered field
descriptor per declared property (with one level of property-`$ref`
substitution), `required` true iff the name occurs in the schema's
`required`. -/
def extract_schema_properties (schema0 : PyVal) (openapi_spec : PyVal) :
    Except String (List (String × PyVal)) := do
  let schema ← refSubstitute schema0 openapi_spec
  let props ← pyGet schema "properties" (vdict [])
  let required ← pyGet schema "required" (vlist [])
  match props with
  | vdict propItems => schemaPropLoop openapi_spec required [] propItems
  | _ => Except.error "AttributeError: items"

/-- A stored endpoint row (the `Endpoint` model fields the pipeline fills;
`request_body` is kept as the dict the source passes to `json.dumps`, or
`none` when the dict is empty/falsy). -/
structure EndpointRec where
  path : String
  method : String
  summary : String
  requires_auth : Bool
  request_body : Option PyVal

/-- The recognized HTTP verbs. -/
def HTTP_METHODS : List String :=
  ["get", "post", "put", "delete", "patch", "head", "options"]

/-- The `requestBody` block of `extract_endpoints`: take only the first
content-type entry (the loop breaks after one iteration); an empty `content`
leaves the accumulator dict empty. -/
def requestBodyBlock (doc details : PyVal) : Except String (List (String × PyVal)) := do
  let hasRB ← pyIn "requestBody" details
  if hasRB then do
    let request_body_info ← pyGetItem details "requestBody"
    let content ← pyGet request_body_info "content" (vdict [])
    match content with
    | vdict contentItems =>
      (match contentItems with
       | [] => pure []
       | (content_type, media_type) :: _ => do
         let schema ← pyGet media_type "schema" (vdict [])
         let fields ← extract_schema_properties schema doc
         let requiredFlag ← pyGet request_body_info "required" (vbool false)
         pure [("content_type", vstr content_type),
               ("required", requiredFlag),
               ("fields", vdict fields)])
    | _ => Except.error "AttributeError: items"
  else pure []

/-- The per-parameter merge of the parameters block. -/
def paramLoop : List (String × PyVal) → List PyVal → Except String (List (String × PyVal))
  | rb, [] => Except.ok rb
  | rb, param :: rest => do
    match param with
    | vdict pkvs =>
      let param_in := (dictGet pkvs "in").getD vnone
      let nameV := (dictGet pkvs "name").getD vnone
      let schema := (dictGet pkvs "schema").getD (vdict [])
      (match schema with
       | vdict skvs =>
         if pyTruthy nameV then
           match nameV with
           | vstr name =>
             let raw : List (String × PyVal) :=
               [("type", (dictGet skvs "type").getD (vstr "string")),
                ("in", param_in),
                ("required", (dictGet pkvs "required").getD (vbool false)),
                ("title", (dictGet skvs "title").getD (vstr name)),
                ("description", (dictGet pkvs "description").getD vnone),
                ("format", (dictGet skvs "format").getD vnone),
                ("minimum", (dictGet skvs "minimum").getD vnone),
                ("maximum", (dictGet skvs "maximum").getD vnone),
                ("minLength", (dictGet skvs "minLength").getD vnone),
                ("maxLength", (dictGet skvs "maxLength").getD vnone),
                ("pattern", (dictGet skvs "pattern").getD vnone)]
             let desc := vdict (raw.filter fun kv =>
               match kv.2 with
               | vnone => false
               | _ => true)
             (match dictGet rb "fields" with
              | some (vdict f) =>
                paramLoop (dictSet rb "fields" (vdict (dictSet f name desc))) rest
              | _ => Except.error "TypeError: fields")
           | _ => Except.error "unmodelled: non-string parameter name"
         else paramLoop rb rest
       | _ => Except.error "AttributeError: get")
    | _ => Except.error "AttributeError: get"

/-- The parameters block of `extract_endpoints`: ensure a `fields` key, then
merge each named parameter's descriptor into it. -/
def parametersBlock (details : PyVal) (rb1 : List (String × PyVal)) :
    Except String (List (String × PyVal)) := do
  let hasParams ← pyIn "parameters" details
  if hasParams then do
    let rbWithFields :=
      if (dictGet rb1 "fields").isSome then rb1
      else dictSet rb1 "fields" (vdict [])
    let paramsVal ← pyGetItem details "parameters"
    match paramsVal with
    | vlist ps => paramLoop rbWithFields ps
    | vstr s => if s.data.isEmpty then pure rbWithFields
                else Except.error "AttributeError: get"
    | vdict kvs => if kvs.isEmpty then pure rbWithFields
                   else Except.error "AttributeError: get"
    | _ => Except.error "TypeError: not iterable"
  else pure rb1

/-- `requires_auth = "security" in details and len(details["security"]) > 0`. -/
def securityFlag (details : PyVal) : Except String Bool := do
  let hasSec ← pyIn "security" details
  if hasSec then do
    let sec ← pyGetItem details "security"
    let n ← pyLen sec
    pure (decide (n > 0))
  else pure false

/-- One endpoint record of `extract_endpoints` (summary from the external
description generator `gen`, modelled as a total collaborator). -/
def buildEndpoint (gen : String → String → String) (doc : PyVal)
    (path method : String) (details : PyVal) : Except String EndpointRec := do
  let summary := gen (pyUpper method) path
  let rb1 ← requestBodyBlock doc details
  let rb2 ← parametersBlock details rb1
  let auth ← securityFlag details
  pure { path := path, method := pyUpper method, summary := summary,
         requires_auth := auth,
         request_body := if rb2.isEmpty then none else some (vdict rb2) }

/-- The inner method loop: only the seven verbs (case-insensitively)
produce records. -/
def methodsLoop (gen : String → String → String) (doc : PyVal) (path : String) :
    List (String × PyVal) → Except String (List EndpointRec)
  | [] => Except.ok []
  | (method, details) :: rest => do
    if HTTP_METHODS.contains (pyLower method) then do
      let rec1 ← buildEndpoint gen doc path method details
      let tail ← methodsLoop gen doc path rest
      pure (rec1 :: tail)
    else methodsLoop gen doc path rest

/-- The outer path loop (`paths.items()`). -/
def pathsLoop (gen : String → String → String) (doc : PyVal) :
    List (String × PyVal) → Except String (List EndpointRec)
  | [] => Except.ok []
  | (path, methods) :: rest => do
    match methods with
    | vdict methodItems => do
      let here ← methodsLoop gen doc path methodItems
      let there ← pathsLoop gen doc rest
      pure (here ++ there)
    | _ => Except.error "AttributeError: items"

/-- `extract_endpoints` of `app/services/openapi_parser.py`, with the
database session and AI collaborator abstracted: the list of endpoint rows
added to the session, in order. -/
def extract_endpoints (gen : String → String → String) (openapi_json : PyVal) :
    Except String (List EndpointRec) := do
  let paths ← pyGet openapi_json "paths" (vdict [])
  match paths with
  | vdict pathItems => pathsLoop gen openapi_json pathItems
  | _ => Except.error "AttributeError: items"

/-! ### `extract_content_type_from_openapi` of
`backend/app/api/v1/endpoints/openapi.py` -/

/-- `re.sub(r'\x7b\w+\x7d', '', ...)`: remove every `\x7b<word>\x7d`
template occurrence, scanning left to right (fuel = list length suffices:
every removal consumes at least one character). -/
def stripTemplatesFuel : Nat → List Char → List Char
  | 0, cs => cs
  | _, [] => []
  | Nat.succ f, '\x7b' :: rest =>
    let w := rest.takeWhile isWordChar
    let r2 := rest.dropWhile isWordChar
    if w.isEmpty then '\x7b' :: stripTemplatesFuel f rest
    else
      match r2 with
      | '\x7d' :: tl => stripTemplatesFuel f tl
      | _ => '\x7b' :: stripTemplatesFuel f rest
  | Nat.succ f, c :: rest => c :: stripTemplatesFuel f rest

/-- `normalize_path`: strip slashes at both ends, then drop `\x7bparam\x7d`
segments. -/
def normalize_path (path : String) : String :=
  let stripped := stripCharList (fun c => c = '/') path.data
  String.mk (stripTemplatesFuel (stripped.length + 1) stripped)

/-- The fixed content-type priority list. -/
def content_type_priority : List String :=
  ["application/x-www-form-urlencoded", "multipart/form-data",
   "application/json", "application/xml", "text/plain"]

/-- `for ct in priority: if ct in container: return ct` (the `in` test uses
Python container semantics, so it can raise). -/
def priorityScan : List String → PyVal → Except String (Option String)
  | [], _ => Except.ok none
  | ct :: rest, container => do
    let b ← pyIn ct container
    if b then pure (some ct) else priorityScan rest container

/-- Does a `paths` entry match the queried path (normalized-template or
exact)? -/
def pathMatches (openapi_path path : String) : Bool :=
  normalize_path openapi_path = normalize_path path || openapi_path = path

/-- The path-entry loop of `extract_content_type_from_openapi`: a matching
entry whose operation is missing or falsy is skipped, as is a matching entry
with truthy operation whose `content` and `consumes` are both empty; the
default is `application/json`. -/
def ctLoop (method_lower path : String) :
    List (String × PyVal) → Except String PyVal
  | [] => Except.ok (vstr "application/json")
  | (openapi_path, methods) :: rest =>
    if pathMatches openapi_path path then
      match methods with
      | vdict mkvs =>
        let operation := (dictGet mkvs method_lower).getD vnone
        if !pyTruthy operation then ctLoop method_lower path rest
        else do
          let request_body ← pyGet operation "requestBody" (vdict [])
          let content ← pyGet request_body "content" (vdict [])
          let hit ← priorityScan content_type_priority content
          match hit with
          | some ct => pure (vstr ct)
          | none =>
            if pyTruthy content then
              match content with
              | vdict (kv :: _) => pure (vstr kv.1)
              | _ => Except.error "AttributeError: keys"
            else do
              let consumes ← pyGet operation "consumes" (vlist [])
              let hit2 ← priorityScan content_type_priority consumes
              match hit2 with
              | some ct => pure (vstr ct)
              | none =>
                if pyTruthy consumes then
                  match consumes with
                  | vlist (x :: _) => pure x
                  | vstr s =>
                    (match s.data with
                     | c :: _ => pure (vstr (String.mk [c]))
                     | [] => Except.error "IndexError")
                  | _ => Except.error "TypeError: indices"
                else ctLoop method_lower path rest
      | _ => Except.error "AttributeError: get"
    else ctLoop method_lower path rest

/-- `extract_content_type_from_openapi`: locate the path entry, then apply
the priority policy to the operation's `requestBody.content`, the first
declared key, the legacy `consumes`, and finally the `application/json`
default. -/
def extract_content_type_from_openapi (openapi : PyVal) (method path : String) :
    Except String PyVal := do
  let paths ← pyGet openapi "paths" (vdict [])
  match paths with
  | vdict pathItems => ctLoop (pyLower method) path pathItems
  | _ => Except.error "AttributeError: items"

/-! ### `parse_openapi_content` and the upload flow -/

/-- Modelled library behavior: `yaml.safe_load` restricted to what the
pipeline's claims exercise — any JSON document (YAML is a JSON superset)
and plain scalars (empty/`null`/booleans/integers/simple words); every
other construct is modelled as a `yaml.YAMLError`. -/
def yamlSafeLoad (content : String) : Except String PyVal :=
  match jsonLoads content with
  | Except.ok v => Except.ok v
  | Except.error _ =>
    let t := pyStripWs content
    if t = "" then Except.ok vnone
    else if t = "null" || t = "~" then Except.ok vnone
    else if t = "true" || t = "True" then Except.ok (vbool true)
    else if t = "false" || t = "False" then Except.ok (vbool false)
    else if pyIsDigit t then Except.ok (vint (Int.ofNat (digitsToNat t.data)))
    else if t.data.all (fun c => c.isAlphanum || c = '_' || c = '-' || c = '.' || c = ' ')
    then Except.ok (vstr t)
    else Except.error "unmodelled YAML construct"

/-- `parse_openapi_content`: try JSON first, fall back to YAML, and raise
`ValueError` only when the YAML parse itself errors. -/
def parse_openapi_content (content : String) : Except String PyVal :=
  match jsonLoads content with
  | Except.ok v => Except.ok v
  | Except.error _ =>
    match yamlSafeLoad content with
    | Except.ok v => Except.ok v
    | Except.error e =>
      Except.error ("Invalid OpenAPI format. Must be valid JSON or YAML. Error: " ++ e)

/-- A stored project row. -/
structure ProjectRec where
  pid : Nat
  name : PyVal
  base_url : Option String

/-- A stored version-log row (`raw_openapi` kept as the parsed value the
source serializes). -/
structure VersionLogRec where
  project_id : Nat
  raw_openapi : PyVal

/-- The persistent state the upload handlers touch. -/
structure DBState where
  nextId : Nat
  projects : List ProjectRec
  version_logs : List VersionLogRec
  endpoints : List (Nat × EndpointRec)

/-- The caller-visible outcome of an upload: an `HTTPException 400`, an
uncaught exception (surfaced as a server error), or success with the new
project id. -/
inductive UploadOutcome where
  | http400 : String → UploadOutcome
  | serverError : String → UploadOutcome
  | success : Nat → UploadOutcome

/-- The shared post-parse logic of `upload_openapi` / `upload_openapi_file`
(lines 45-62 and 83-102 are textually identical): read `info.title`
(`KeyError` is caught and turned into a 400 before any session is opened;
a non-dict on the lookup path raises an uncaught `TypeError`), then create
the project, version log and endpoints in one transaction — an extraction
error rolls the whole session back. -/
def ingestParsedOpenapi (gen : String → String → String) (doc : PyVal)
    (base_url : Option String) (db : DBState) : UploadOutcome × DBState :=
  match doc with
  | vdict kvs =>
    (match dictGet kvs "info" with
     | none => (UploadOutcome.http400 "Missing info.title in OpenAPI specification", db)
     | some info =>
       match info with
       | vdict ikvs =>
         (match dictGet ikvs "title" with
          | none => (UploadOutcome.http400 "Missing info.title in OpenAPI specification", db)
          | some t =>
            match extract_endpoints gen doc with
            | Except.error e => (UploadOutcome.serverError e, db)
            | Except.ok recs =>
              let pid := db.nextId
              (UploadOutcome.success pid,
               { nextId := pid + 1,
                 projects := db.projects ++ [{ pid := pid, name := t, base_url := base_url }],
                 version_logs := db.version_logs ++ [{ project_id := pid, raw_openapi := doc }],
                 endpoints := db.endpoints ++ recs.map (fun r => (pid, r)) }))
       | _ => (UploadOutcome.serverError "TypeError: not subscriptable", db))
  | _ => (UploadOutcome.serverError "TypeError: not subscriptable", db)

/-- `upload_openapi` (URL variant) after a 200 fetch whose body is
`fetched`. -/
def upload_openapi (gen : String → String → String) (fetched : String)
    (base_url : Option String) (db : DBState) : UploadOutcome × DBState :=
  match parse_openapi_content fetched with
  | Except.error e => (UploadOutcome.http400 e, db)
  | Except.ok doc => ingestParsedOpenapi gen doc base_url db

/-- `upload_openapi_file` after a successful UTF-8 decode of the uploaded
file. -/
def upload_openapi_file (gen : String → String → String) (content : String)
    (base_url : Option String) (db : DBState) : UploadOutcome × DBState :=
  match parse_openapi_content content with
  | Except.error e => (UploadOutcome.http400 e, db)
  | Except.ok doc => ingestParsedOpenapi gen doc base_url db

/-! ### Shared lemmas -/

theorem exceptBind_ok {α β : Type} (a : α) (f : α → Except String β) :
    (Except.ok a >>= f) = f a := rfl

theorem exceptBind_err {α β : Type} (e : String) (f : α → Except String β) :
    ((Except.error e : Except String α) >>= f) = Except.error e := rfl

theorem exceptPure {α : Type} (a : α) : (pure a : Except String α) = Except.ok a := rfl

theorem dictGet_dictSet_self (kvs : List (String × PyVal)) (k : String) (v : PyVal) :
    dictGet (dictSet kvs k v) k = some v := by
  induction kvs with
  | nil => simp [dictSet, dictGet]
  | cons kv rest ih =>
    by_cases h : kv.1 = k
    · simp [dictSet, dictGet, h]
    · simp [dictSet, dictGet, h, ih]

theorem dictGet_dictSet_ne (kvs : List (String × PyVal)) (k k' : String) (v : PyVal)
    (h : k ≠ k') : dictGet (dictSet kvs k v) k' = dictGet kvs k' := by
  induction kvs with
  | nil => simp [dictSet, dictGet, h]
  | cons kv rest ih =>
    obtain ⟨k0, v0⟩ := kv
    by_cases h1 : k0 = k
    · subst h1
      simp [dictSet, dictGet, h]
    · simp [dictSet, dictGet, h1, ih]

/-- `C10`: the plain word `hello` is not valid JSON yet `parse_openapi_content`
returns it as a string scalar, not a document object and not an error; and in
general `parse_openapi_content` raises its `ValueError` only when the YAML
parse itself errors. -/
theorem parse_openapi_content_scalar :
    jsonLoads "hello" = Except.error "Expecting value"
    ∧ parse_openapi_content "hello" = Except.ok (vstr "hello")
    ∧ (∀ kvs, vstr "hello" ≠ vdict kvs)
    ∧ (∀ s e, parse_openapi_content s = Except.error e →
        ∃ e2, yamlSafeLoad s = Except.error e2) := by
  refine ⟨by rfl, by rfl, ?_, ?_⟩
  · intro kvs h
    cases h
  intro s e h
  unfold parse_openapi_content at h
  cases hj : jsonLoads s with
  | ok v => rw [hj] at h; cases h
  | error e1 =>
    rw [hj] at h
    cases hy : yamlSafeLoad s with
    | ok v => rw [hy] at h; cases h
    | error e2 => exact ⟨e2, rfl⟩

/-- `C10` witness: the last conjunct applied at the concrete non-document
input `[`, whose rejection indeed comes with a YAML-parse error. -/
theorem parse_openapi_content_scalar_witness :
    ∃ e2, yamlSafeLoad "[" = Except.error e2 :=
  parse_openapi_content_scalar.2.2.2 "["
    "Invalid OpenAPI format. Must be valid JSON or YAML. Error: unmodelled YAML construct"
    (by rfl)

/-- `C8`: a parsed document that lacks the `info.title` key is rejected by
both upload handlers — no success outcome — and the database state is
returned unchanged: no project, version log or endpoint row is created. -/
theorem upload_rejects_missing_title
    (gen : String → String → String) (content : String) (base_url : Option String)
    (db : DBState) (doc : PyVal)
    (hparse : parse_openapi_content content = Except.ok doc)
    (hmiss : ∀ kvs ikvs, doc = vdict kvs → dictGet kvs "info" = some (vdict ikvs) →
      dictGet ikvs "title" = none) :
    (∀ pid, (upload_openapi gen content base_url db).1 ≠ UploadOutcome.success pid)
    ∧ (upload_openapi gen content base_url db).2 = db
    ∧ (∀ pid, (upload_openapi_file gen content base_url db).1 ≠ UploadOutcome.success pid)
    ∧ (upload_openapi_file gen content base_url db).2 = db := by
  have hmain : (∀ pid, (ingestParsedOpenapi gen doc base_url db).1 ≠ UploadOutcome.success pid)
      ∧ (ingestParsedOpenapi gen doc base_url db).2 = db := by
    unfold ingestParsedOpenapi
    cases doc with
    | vdict kvs =>
      cases hinfo : dictGet kvs "info" with
      | none => exact ⟨fun pid h => by simp [hinfo] at h, by simp [hinfo]⟩
      | some info =>
        cases info with
        | vdict ikvs =>
          have htitle := hmiss kvs ikvs rfl hinfo
          exact ⟨fun pid h => by simp [hinfo, htitle] at h, by simp [hinfo, htitle]⟩
        | vnone => exact ⟨fun pid h => by simp [hinfo] at h, by simp [hinfo]⟩
        | vbool b => exact ⟨fun pid h => by simp [hinfo] at h, by simp [hinfo]⟩
        | vint n => exact ⟨fun pid h => by simp [hinfo] at h, by simp [hinfo]⟩
        | vfloat s => exact ⟨fun pid h => by simp [hinfo] at h, by simp [hinfo]⟩
        | vstr s => exact ⟨fun pid h => by simp [hinfo] at h, by simp [hinfo]⟩
        | vlist xs => exact ⟨fun pid h => by simp [hinfo] at h, by simp [hinfo]⟩
    | vnone => exact ⟨(fun pid h => by cases h), rfl⟩
    | vbool b => exact ⟨(fun pid h => by cases h), rfl⟩
    | vint n => exact ⟨(fun pid h => by cases h), rfl⟩
    | vfloat s => exact ⟨(fun pid h => by cases h), rfl⟩
    | vstr s => exact ⟨(fun pid h => by cases h), rfl⟩
    | vlist xs => exact ⟨(fun pid h => by cases h), rfl⟩
  have hurl : upload_openapi gen content base_url db = ingestParsedOpenapi gen doc base_url db := by
    unfold upload_openapi
    rw [hparse]
  have hfile : upload_openapi_file gen content base_url db
      = ingestParsedOpenapi gen doc base_url db := by
    unfold upload_openapi_file
    rw [hparse]
  rw [hurl, hfile]
  exact ⟨hmain.1, hmain.2, hmain.1, hmain.2⟩

/-- `C8` witness: a concrete JSON document without `info`, uploaded into an
empty database, is rejected and leaves the state unchanged. -/
theorem upload_rejects_missing_title_witness :
    (upload_openapi_file (fun _ _ => "") "\x7b\"openapi\": \"3.0.0\"\x7d" none
        ⟨0, [], [], []⟩).2 = ⟨0, [], [], []⟩
    ∧ ∀ pid, (upload_openapi_file (fun _ _ => "") "\x7b\"openapi\": \"3.0.0\"\x7d" none
        ⟨0, [], [], []⟩).1 ≠ UploadOutcome.success pid := by
  have h := upload_rejects_missing_title (fun _ _ => "") "\x7b\"openapi\": \"3.0.0\"\x7d"
    none ⟨0, [], [], []⟩ (vdict [("openapi", vstr "3.0.0")]) (by rfl)
    (by
      intro kvs ikvs hdoc hinfo
      cases hdoc
      simp [dictGet] at hinfo)
  exact ⟨h.2.2.2, h.2.2.1⟩

/-- The cURL command of the `C6` counterexample: a malformed `\x` escape in
a form-urlencoded body. -/
def c6curl : String :=
  "curl -X POST \x27https://x.com/a\x27 -H \x27Content-Type: application/x-www-form-urlencoded\x27 -d \x27a=b\\x\x27"

set_option maxRecDepth 10000 in
/-- `C6` counterexample: the `-d` body `a=b\x` fails to unescape (malformed
escape sequence), yet `parse_curl` still derives a non-empty structured body
from the raw text via the form-urlencoded branch — the claim that any
decode failure leaves the structured body absent is false. -/
theorem parse_curl_c6_counterexample :
    pyUnescape "a=b\\x".data = none
    ∧ parse_curl c6curl = Except.ok
      { method := "POST", base_url := "https://x.com", path := "/a",
        headers := [("Content-Type", "application/x-www-form-urlencoded")],
        body := some "a=b\\x",
        parameters := [],
        requires_auth := false,
        request_body := some (vdict [("type", vstr "object"),
          ("properties", vdict [("a", vdict [("type", vstr "string"),
            ("title", vstr "A"), ("example", vstr "b\\x")])]),
          ("required", vlist [vstr "a"])]) } :=
  ⟨by rfl, by rfl⟩

/-- `C6` as amended: for every command with `Content-Type: application/json`
whose non-empty `-d` body text — after the escape-processing attempt, which
on failure keeps the text unchanged — fails to parse as JSON, `parse_curl`
returns normally, the structured body is absent, and the (post-attempt) raw
body text is retained. -/
theorem parse_curl_json_decode_failure (curl : String) (raw : String)
    (hraw : curlRawBody curl = some raw) (hne : raw ≠ "")
    (hct : curlContentType curl = "application/json")
    (herr : ∃ e, jsonLoads raw = Except.error e) :
    ∃ r, parse_curl curl = Except.ok r
      ∧ r.request_body = none ∧ r.body = some raw := by
  obtain ⟨e, he⟩ := herr
  have hrb : curlRequestBody curl = Except.ok none := by
    unfold curlRequestBody
    rw [hraw, hct]
    simp [hne, he]
  unfold parse_curl
  rw [hrb]
  exact ⟨_, rfl, rfl, hraw⟩

/-- `C6` witness: a concrete JSON-content-type command whose body is not
valid JSON parses to a record with no structured body and the raw text
kept. -/
theorem parse_curl_json_decode_failure_witness :
    ∃ r, parse_curl
      "curl -X POST \x27https://x.com/a\x27 -H \x27Content-Type: application/json\x27 -d \x27notjson\x27"
      = Except.ok r ∧ r.request_body = none ∧ r.body = some "notjson" :=
  parse_curl_json_decode_failure _ "notjson" (by rfl) (by decide)
    (by rfl) ⟨"Expecting value", by rfl⟩

/-- Overwriting an existing key leaves the key list (and order) unchanged. -/
theorem dictSet_keys_of_mem (kvs : List (String × PyVal)) (k : String) (v v' : PyVal)
    (h : dictGet kvs k = some v') :
    (dictSet kvs k v).map Prod.fst = kvs.map Prod.fst := by
  induction kvs with
  | nil => simp [dictGet] at h
  | cons kv rest ih =>
    obtain ⟨k0, v0⟩ := kv
    by_cases h0 : k0 = k
    · simp [dictSet, h0]
    · rw [dictGet] at h
      simp only [h0, if_false] at h
      simp [dictSet, h0, ih h]

/-- The parameter merge only ever rewrites the existing `fields` entry: the
accumulator's key list is preserved. -/
theorem paramLoop_keys (ps : List PyVal) :
    ∀ rb rb', paramLoop rb ps = Except.ok rb' →
      rb'.map Prod.fst = rb.map Prod.fst := by
  induction ps with
  | nil =>
    intro rb rb' h
    unfold paramLoop at h
    cases h
    rfl
  | cons p rest ih =>
    intro rb rb' h
    unfold paramLoop at h
    split at h
    next pkvs =>
      simp only [] at h
      split at h
      next skvs =>
        split at h
        next hname =>
          split at h
          next name =>
            split at h
            next f hf =>
              have hkeys := ih _ _ h
              rw [hkeys]
              exact dictSet_keys_of_mem rb "fields" _ _ hf
            next => exact absurd h (by simp)
          next => exact absurd h (by simp)
        next => exact ih _ _ h
      next => exact absurd h (by simp)
    next => exact absurd h (by simp)

/-- When the accumulator already has a `fields` key, the parameters block
preserves the key list. -/
theorem parametersBlock_keys (details : PyVal) (rb1 rb2 : List (String × PyVal))
    (hf : (dictGet rb1 "fields").isSome = true)
    (h : parametersBlock details rb1 = Except.ok rb2) :
    rb2.map Prod.fst = rb1.map Prod.fst := by
  unfold parametersBlock at h
  cases hin : pyIn "parameters" details with
  | error e => rw [hin] at h; cases h
  | ok b =>
    rw [hin] at h
    simp only [exceptBind_ok] at h
    cases b with
    | false =>
      simp only [if_false, Bool.false_eq_true] at h
      cases h
      rfl
    | true =>
      simp only [if_true] at h
      rw [if_pos hf] at h
      cases hgi : pyGetItem details "parameters" with
      | error e => rw [hgi] at h; cases h
      | ok pv =>
        rw [hgi] at h
        simp only [exceptBind_ok] at h
        cases pv with
        | vlist ps => exact paramLoop_keys ps rb1 rb2 h
        | vstr s =>
          by_cases hs : s.data.isEmpty = true
          · simp only [hs, if_true] at h; cases h; rfl
          · simp only [hs, if_false] at h; cases h
        | vdict kvs =>
          by_cases hs : kvs.isEmpty = true
          · simp only [hs, if_true] at h; cases h; rfl
          · simp only [hs, if_false] at h; cases h
        | vnone => cases h
        | vbool b2 => cases h
        | vint n => cases h
        | vfloat s => cases h

/-- The claim-side reading of the request-body derivation: content type from
the first declared content entry, fields from that entry's schema via the
SchemaResolver, `required` from the `requestBody`'s own flag. -/
def firstContentBody (doc : PyVal) (rkvs : List (String × PyVal)) (ct : String)
    (mt : PyVal) : Except String (List (String × PyVal)) := do
  let schema ← pyGet mt "schema" (vdict [])
  let fields ← extract_schema_properties schema doc
  let requiredFlag ← pyGet (vdict rkvs) "required" (vbool false)
  pure [("content_type", vstr ct), ("required", requiredFlag),
        ("fields", vdict fields)]

/-- With a `requestBody` whose `content` is non-empty, the request-body block
is exactly the first-entry derivation. -/
theorem requestBodyBlock_eq_first (doc : PyVal) (dkvs rkvs : List (String × PyVal))
    (ct : String) (mt : PyVal) (rest : List (String × PyVal))
    (h1 : dictGet dkvs "requestBody" = some (vdict rkvs))
    (h2 : dictGet rkvs "content" = some (vdict ((ct, mt) :: rest))) :
    requestBodyBlock doc (vdict dkvs) = firstContentBody doc rkvs ct mt := by
  unfold requestBodyBlock
  simp only [pyIn, h1, Option.isSome_some, exceptBind_ok, if_true]
  simp only [pyGetItem, h1, exceptBind_ok]
  simp only [pyGet, h2, Option.getD_some, exceptBind_ok]
  rfl

/-- The keys of a dict value (empty for non-dicts). -/
def pyKeys : PyVal → List String
  | vdict kvs => kvs.map Prod.fst
  | _ => []

/-- The cURL command of the `C4` counterexample: a JSON body. -/
def c4curl : String :=
  "curl -X POST \x27https://x.com/items\x27 -H \x27Content-Type: application/json\x27 -d \x27\x7b\"title\": \"Hi\"\x7d\x27"

set_option maxRecDepth 10000 in
/-- `C4` counterexample: a cURL command with a JSON body yields a stored
structured body whose keys are `type`, `properties`, `required` — not the
`\x7bcontentType, required, fields\x7d` descriptor shape shared with the
OpenAPI adapter claimed by the spec. -/
theorem curl_body_shape_counterexample :
    (parse_curl c4curl).map (fun r => r.request_body.map pyKeys)
      = Except.ok (some ["type", "properties", "required"])
    ∧ "content_type" ∉ ["type", "properties", "required"]
    ∧ "fields" ∉ ["type", "properties", "required"] :=
  ⟨by rfl, by decide, by decide⟩

/-- `C4` as amended: each adapter has a fixed but different structured-body
shape.  An OpenAPI operation whose `requestBody` declares at least one
content entry is stored with exactly the keys `content_type`, `required`,
`fields` (the parameter merge leaves the key list unchanged), while a cURL
command with a parsed JSON object body is stored with exactly the keys
`type`, `properties`, `required`. -/
theorem canonical_body_shapes :
    (∀ (gen : String → String → String) (doc : PyVal) (path method : String)
       (dkvs rkvs : List (String × PyVal)) (ct : String) (mt : PyVal)
       (rest : List (String × PyVal)) (rec1 : EndpointRec),
      dictGet dkvs "requestBody" = some (vdict rkvs) →
      dictGet rkvs "content" = some (vdict ((ct, mt) :: rest)) →
      buildEndpoint gen doc path method (vdict dkvs) = Except.ok rec1 →
      ∃ rb, rec1.request_body = some (vdict rb)
        ∧ rb.map Prod.fst = ["content_type", "required", "fields"])
    ∧ (∀ (curl raw : String) (kvs : List (String × PyVal)) (r : CurlResult),
      curlRawBody curl = some raw → raw ≠ "" →
      curlContentType curl = "application/json" →
      jsonLoads raw = Except.ok (vdict kvs) →
      parse_curl curl = Except.ok r →
      ∃ rb, r.request_body = some (vdict rb)
        ∧ rb.map Prod.fst = ["type", "properties", "required"]) := by
  constructor
  · intro gen doc path method dkvs rkvs ct mt rest rec1 h1 h2 hok
    unfold buildEndpoint at hok
    rw [requestBodyBlock_eq_first doc dkvs rkvs ct mt rest h1 h2] at hok
    unfold firstContentBody at hok
    cases hs : pyGet mt "schema" (vdict []) with
    | error e => rw [hs] at hok; cases hok
    | ok schema =>
      rw [hs] at hok
      simp only [exceptBind_ok] at hok
      cases hfs : extract_schema_properties schema doc with
      | error e => rw [hfs] at hok; cases hok
      | ok fields =>
        rw [hfs] at hok
        simp only [exceptBind_ok, pyGet, exceptPure] at hok
        set rb1 : List (String × PyVal) :=
          [("content_type", vstr ct),
           ("required", (dictGet rkvs "required").getD (vbool false)),
           ("fields", vdict fields)] with hrb1
        cases hpb : parametersBlock (vdict dkvs) rb1 with
        | error e => rw [hpb] at hok; cases hok
        | ok rb2 =>
          rw [hpb] at hok
          simp only [exceptBind_ok] at hok
          cases hsec : securityFlag (vdict dkvs) with
          | error e => rw [hsec] at hok; cases hok
          | ok auth =>
            rw [hsec] at hok
            simp only [exceptBind_ok, exceptPure, Except.ok.injEq] at hok
            have hkeys : rb2.map Prod.fst = rb1.map Prod.fst :=
              parametersBlock_keys (vdict dkvs) rb1 rb2 (by rw [hrb1]; rfl) hpb
            have hk1 : rb1.map Prod.fst = ["content_type", "required", "fields"] := by
              rw [hrb1]
              rfl
            have hne : rb2.isEmpty = false := by
              cases rb2 with
              | nil =>
                rw [hk1] at hkeys
                simp at hkeys
              | cons a l => rfl
            refine ⟨rb2, ?_, hkeys.trans hk1⟩
            rw [← hok]
            simp [hne]
  · intro curl raw kvs r hraw hne hct hjson hok
    have hrb : curlRequestBody curl = Except.ok (some (curlJsonBody kvs)) := by
      unfold curlRequestBody
      rw [hraw, hct]
      simp [hne, hjson]
    unfold parse_curl at hok
    rw [hrb] at hok
    simp only [Except.ok.injEq] at hok
    rw [← hok]
    exact ⟨_, rfl, rfl⟩

set_option maxRecDepth 10000 in
/-- `C4` witness: both halves of the shape theorem applied at concrete
inputs — an OpenAPI operation with one JSON content entry and the `c4curl`
command. -/
theorem canonical_body_shapes_witness :
    (∃ rb, (EndpointRec.mk "/p" "POST" "" false
        (some (vdict [("content_type", vstr "application/json"),
          ("required", vbool false),
          ("fields", vdict [("z", vdict [("type", vstr "string"),
            ("required", vbool false), ("title", vstr "z")])])]))).request_body
        = some (vdict rb) ∧ rb.map Prod.fst = ["content_type", "required", "fields"])
    ∧ (∃ rb, (CurlResult.mk "POST" "https://x.com" "/items"
        [("Content-Type", "application/json")]
        (some "\x7b\"title\": \"Hi\"\x7d") [] false
        (some (vdict [("type", vstr "object"),
          ("properties", vdict [("title", vdict [("type", vstr "string"),
            ("title", vstr "Title"), ("example", vstr "Hi")])]),
          ("required", vlist [vstr "title"])]))).request_body
        = some (vdict rb) ∧ rb.map Prod.fst = ["type", "properties", "required"]) := by
  constructor
  · exact canonical_body_shapes.1 (fun _ _ => "") (vdict []) "/p" "post"
      [("requestBody", vdict [("content", vdict [("application/json",
        vdict [("schema", vdict [("properties",
          vdict [("z", vdict [("type", vstr "string")])])])])])])]
      [("content", vdict [("application/json", vdict [("schema",
        vdict [("properties", vdict [("z", vdict [("type", vstr "string")])])])])])]
      "application/json"
      (vdict [("schema", vdict [("properties",
        vdict [("z", vdict [("type", vstr "string")])])])])
      [] _ (by rfl) (by rfl) (by rfl)
  · exact canonical_body_shapes.2 c4curl "\x7b\"title\": \"Hi\"\x7d"
      [("title", vstr "Hi")] _ (by rfl) (by decide) (by rfl) (by rfl) (by rfl)

/-- `C5`: with a `requestBody` declaring more than one content entry, the
record is derived from the first entry only — the stored `content_type` is
the first key, the fields come from that entry's schema via the
SchemaResolver, `required` from the `requestBody` flag — and replacing all
later content entries by arbitrary ones leaves the produced record
unchanged. -/
theorem first_content_type_wins
    (gen : String → String → String) (doc : PyVal) (path method : String)
    (dkvs rkvs : List (String × PyVal)) (ct : String) (mt : PyVal)
    (rest rest' : List (String × PyVal))
    (h1 : dictGet dkvs "requestBody" = some (vdict rkvs))
    (h2 : dictGet rkvs "content" = some (vdict ((ct, mt) :: rest))) :
    requestBodyBlock doc (vdict dkvs) = firstContentBody doc rkvs ct mt
    ∧ buildEndpoint gen doc path method (vdict dkvs)
      = buildEndpoint gen doc path method
          (vdict (dictSet dkvs "requestBody"
            (vdict (dictSet rkvs "content" (vdict ((ct, mt) :: rest')))))) := by
  refine ⟨requestBodyBlock_eq_first doc dkvs rkvs ct mt rest h1 h2, ?_⟩
  have h1' : dictGet (dictSet dkvs "requestBody"
      (vdict (dictSet rkvs "content" (vdict ((ct, mt) :: rest'))))) "requestBody"
      = some (vdict (dictSet rkvs "content" (vdict ((ct, mt) :: rest')))) :=
    dictGet_dictSet_self dkvs "requestBody" _
  have h2' : dictGet (dictSet rkvs "content" (vdict ((ct, mt) :: rest'))) "content"
      = some (vdict ((ct, mt) :: rest')) :=
    dictGet_dictSet_self rkvs "content" _
  have e2 : firstContentBody doc (dictSet rkvs "content" (vdict ((ct, mt) :: rest'))) ct mt
      = firstContentBody doc rkvs ct mt := by
    unfold firstContentBody
    simp [pyGet, dictGet_dictSet_ne rkvs "content" "required" _ (by decide)]
  have e3 : parametersBlock (vdict (dictSet dkvs "requestBody"
      (vdict (dictSet rkvs "content" (vdict ((ct, mt) :: rest'))))))
      = parametersBlock (vdict dkvs) := by
    funext rb
    unfold parametersBlock
    simp [pyIn, pyGetItem,
      dictGet_dictSet_ne dkvs "requestBody" "parameters" _ (by decide)]
  have e4 : securityFlag (vdict (dictSet dkvs "requestBody"
      (vdict (dictSet rkvs "content" (vdict ((ct, mt) :: rest'))))))
      = securityFlag (vdict dkvs) := by
    unfold securityFlag
    simp [pyIn, pyGetItem,
      dictGet_dictSet_ne dkvs "requestBody" "security" _ (by decide)]
  unfold buildEndpoint
  rw [requestBodyBlock_eq_first doc dkvs rkvs ct mt rest h1 h2,
      requestBodyBlock_eq_first doc _ _ ct mt rest' h1' h2', e2, e3, e4]

set_option maxRecDepth 10000 in
/-- `C5` witness: a concrete operation declaring both `multipart/form-data`
and `application/json` content produces the same record after the JSON entry
is replaced by an `application/xml` one, and the body block equals the
first-entry derivation. -/
theorem first_content_type_wins_witness :
    requestBodyBlock (vdict [])
      (vdict [("requestBody", vdict [("content", vdict
        [("multipart/form-data", vdict []), ("application/json", vdict [])])])])
      = firstContentBody (vdict [])
          [("content", vdict [("multipart/form-data", vdict []),
            ("application/json", vdict [])])]
          "multipart/form-data" (vdict [])
    ∧ buildEndpoint (fun _ _ => "") (vdict []) "/p" "post"
        (vdict [("requestBody", vdict [("content", vdict
          [("multipart/form-data", vdict []), ("application/json", vdict [])])])])
      = buildEndpoint (fun _ _ => "") (vdict []) "/p" "post"
          (vdict (dictSet [("requestBody", vdict [("content", vdict
            [("multipart/form-data", vdict []), ("application/json", vdict [])])])]
            "requestBody"
            (vdict (dictSet [("content", vdict [("multipart/form-data", vdict []),
              ("application/json", vdict [])])]
              "content"
              (vdict [("multipart/form-data", vdict []),
                ("application/xml", vdict [])]))))) :=
  first_content_type_wins (fun _ _ => "") (vdict []) "/p" "post"
    [("requestBody", vdict [("content", vdict [("multipart/form-data", vdict []),
      ("application/json", vdict [])])])]
    [("content", vdict [("multipart/form-data", vdict []),
      ("application/json", vdict [])])]
    "multipart/form-data" (vdict [])
    [("application/json", vdict [])] [("application/xml", vdict [])]
    (by rfl) (by rfl)

/-- A successful `searchMethod` group is non-empty (the `\w+` requires at
least one character). -/
theorem matchMethodAt_ne_nil (cs : List Char) (w : List Char)
    (h : matchMethodAt cs = some w) : w ≠ [] := by
  unfold matchMethodAt at h
  split at h
  · cases h
  · split at h
    · cases h
    · simp only [] at h
      split at h
      · split at h
        · cases h
        · cases h
          simp_all
      · split at h
        · cases h
        · cases h
          simp_all

theorem searchMethod_ne_nil (cs : List Char) (w : List Char)
    (h : searchMethod cs = some w) : w ≠ [] := by
  induction cs with
  | nil => simp [searchMethod] at h
  | cons c rest ih =>
    unfold searchMethod at h
    cases hm : matchMethodAt (c :: rest) with
    | some w2 =>
      simp only [hm] at h
      cases h
      exact matchMethodAt_ne_nil (c :: rest) _ hm
    | none =>
      simp only [hm] at h
      exact ih h

/-- Strings and their character lists are empty together. -/
theorem ne_empty_iff_data (s : String) : s ≠ "" ↔ s.data ≠ [] := by
  cases s with
  | mk l =>
    constructor
    · intro h hd
      apply h
      simp only at hd
      rw [hd]
    · intro h he
      apply h
      have h2 := congrArg String.data he
      simpa using h2

/-- `pyUpper` preserves non-emptiness. -/
theorem pyUpper_ne_empty (s : String) (h : s ≠ "") : pyUpper s ≠ "" := by
  rw [ne_empty_iff_data] at h ⊢
  unfold pyUpper
  simpa using h

/-- A method key recognized as one of the seven verbs is non-empty. -/
theorem method_key_ne_empty (m : String)
    (h : HTTP_METHODS.contains (pyLower m) = true) : m ≠ "" := by
  intro he
  subst he
  simp [HTTP_METHODS, pyLower] at h

/-- `buildEndpoint` copies the path verbatim and upper-cases the method. -/
theorem buildEndpoint_fields (gen : String → String → String) (doc : PyVal)
    (path method : String) (details : PyVal) (rec1 : EndpointRec)
    (h : buildEndpoint gen doc path method details = Except.ok rec1) :
    rec1.path = path ∧ rec1.method = pyUpper method := by
  unfold buildEndpoint at h
  cases h1 : requestBodyBlock doc details with
  | error e => rw [h1] at h; cases h
  | ok rb1 =>
    rw [h1] at h
    simp only [exceptBind_ok] at h
    cases h2 : parametersBlock details rb1 with
    | error e => rw [h2] at h; cases h
    | ok rb2 =>
      rw [h2] at h
      simp only [exceptBind_ok] at h
      cases h3 : securityFlag details with
      | error e => rw [h3] at h; cases h
      | ok auth =>
        rw [h3] at h
        simp only [exceptBind_ok, exceptPure, Except.ok.injEq] at h
        subst h
        exact ⟨rfl, rfl⟩

/-- Every record of the method loop carries the loop's path and a non-empty
method. -/
theorem methodsLoop_props (gen : String → String → String) (doc : PyVal)
    (path : String) (items : List (String × PyVal)) :
    ∀ recs, methodsLoop gen doc path items = Except.ok recs →
      ∀ r ∈ recs, r.path = path ∧ r.method ≠ "" := by
  induction items with
  | nil =>
    intro recs h r hr
    unfold methodsLoop at h
    cases h
    cases hr
  | cons md rest ih =>
    intro recs h r hr
    obtain ⟨method, details⟩ := md
    unfold methodsLoop at h
    split at h
    next hcont =>
      cases hb : buildEndpoint gen doc path method details with
      | error e => rw [hb] at h; cases h
      | ok rec1 =>
        rw [hb] at h
        simp only [exceptBind_ok] at h
        cases ht : methodsLoop gen doc path rest with
        | error e => rw [ht] at h; cases h
        | ok tail =>
          rw [ht] at h
          simp only [exceptBind_ok, exceptPure, Except.ok.injEq] at h
          subst h
          rcases List.mem_cons.mp hr with hr1 | hr1
          · subst hr1
            obtain ⟨hp, hm⟩ := buildEndpoint_fields gen doc path method details r hb
            refine ⟨hp, ?_⟩
            rw [hm]
            exact pyUpper_ne_empty method (method_key_ne_empty method hcont)
          · exact ih tail ht r hr1
    next => exact ih recs h r hr

/-- Every record of the path loop takes its path from one of the `paths`
keys and has a non-empty method. -/
theorem pathsLoop_props (gen : String → String → String) (doc : PyVal)
    (items : List (String × PyVal)) :
    ∀ recs, pathsLoop gen doc items = Except.ok recs →
      ∀ r ∈ recs, r.path ∈ items.map Prod.fst ∧ r.method ≠ "" := by
  induction items with
  | nil =>
    intro recs h r hr
    unfold pathsLoop at h
    cases h
    cases hr
  | cons pm rest ih =>
    intro recs h r hr
    obtain ⟨path, methods⟩ := pm
    unfold pathsLoop at h
    split at h
    next methodItems =>
      cases hh : methodsLoop gen doc path methodItems with
      | error e => rw [hh] at h; cases h
      | ok here =>
        rw [hh] at h
        simp only [exceptBind_ok] at h
        cases ht : pathsLoop gen doc rest with
        | error e => rw [ht] at h; cases h
        | ok there =>
          rw [ht] at h
          simp only [exceptBind_ok, exceptPure, Except.ok.injEq] at h
          subst h
          rcases List.mem_append.mp hr with hr1 | hr1
          · obtain ⟨hp, hm⟩ := methodsLoop_props gen doc path methodItems here hh r hr1
            exact ⟨by rw [hp]; exact List.mem_cons_self _ _, hm⟩
          · obtain ⟨hp, hm⟩ := ih there ht r hr1
            exact ⟨List.mem_cons_of_mem _ hp, hm⟩
    next => cases h

/-- String concatenation concatenates the character lists. -/
theorem strAppend_data (a b : String) : (a ++ b).data = a.data ++ b.data := rfl

/-- The extracted cURL method is never empty. -/
theorem curlMethod_ne_empty (curl : String) : curlMethod curl ≠ "" := by
  unfold curlMethod
  cases hs : searchMethod curl.data with
  | some w =>
    apply pyUpper_ne_empty
    rw [ne_empty_iff_data]
    simpa using searchMethod_ne_nil curl.data w hs
  | none => decide

set_option maxRecDepth 10000 in
/-- `C9` counterexample: an OpenAPI document whose `paths` has the empty
string as a key produces a canonical endpoint record with an empty path —
the path key is copied verbatim. -/
theorem extract_endpoints_empty_path_counterexample :
    extract_endpoints (fun _ _ => "")
      (vdict [("paths", vdict [("", vdict [("get", vdict [])])])])
      = Except.ok [EndpointRec.mk "" "GET" "" false none]
    ∧ (EndpointRec.mk "" "GET" "" false none).path = "" :=
  ⟨by rfl, rfl⟩

/-- `C9` as amended: every record produced by either adapter has a non-empty
method; every cURL record also has a non-empty path (it always starts with
`/`); an OpenAPI record's path is copied verbatim from the document's
`paths` key, so it is non-empty exactly when that key is. -/
theorem nonempty_path_method :
    (∀ (gen : String → String → String) (doc : PyVal) (recs : List EndpointRec),
      extract_endpoints gen doc = Except.ok recs → ∀ r ∈ recs, r.method ≠ "")
    ∧ (∀ (gen : String → String → String) (dockvs pathItems : List (String × PyVal))
         (recs : List EndpointRec),
        dictGet dockvs "paths" = some (vdict pathItems) →
        extract_endpoints gen (vdict dockvs) = Except.ok recs →
        ∀ r ∈ recs, r.path ∈ pathItems.map Prod.fst)
    ∧ (∀ (curl : String) (r : CurlResult),
        parse_curl curl = Except.ok r → r.path ≠ "" ∧ r.method ≠ "") := by
  refine ⟨?_, ?_, ?_⟩
  · intro gen doc recs h r hr
    unfold extract_endpoints at h
    cases doc with
    | vdict kvs =>
      simp only [pyGet, exceptBind_ok] at h
      split at h
      next pitems heq => exact (pathsLoop_props gen _ pitems recs h r hr).2
      next => cases h
    | vnone => cases h
    | vbool b => cases h
    | vint n => cases h
    | vfloat s => cases h
    | vstr s => cases h
    | vlist xs => cases h
  · intro gen dockvs pathItems recs hp h r hr
    unfold extract_endpoints at h
    simp only [pyGet, exceptBind_ok, hp, Option.getD_some] at h
    exact (pathsLoop_props gen _ pathItems recs h r hr).1
  · intro curl r h
    unfold parse_curl at h
    cases hrb : curlRequestBody curl with
    | error e => rw [hrb] at h; cases h
    | ok rb =>
      rw [hrb] at h
      simp only [Except.ok.injEq] at h
      subst h
      constructor
      · rw [ne_empty_iff_data, strAppend_data]
        simp
      · exact curlMethod_ne_empty curl

set_option maxRecDepth 10000 in
/-- `C9` witness: the amended theorem applied to a concrete document with a
non-empty path key and a concrete cURL command. -/
theorem nonempty_path_method_witness :
    (∀ r ∈ [EndpointRec.mk "/a" "GET" "" false none], r.method ≠ "")
    ∧ ((CurlResult.mk "GET" "https://e.com" "/a" [] none [] false none).path ≠ ""
      ∧ (CurlResult.mk "GET" "https://e.com" "/a" [] none [] false none).method ≠ "") :=
  ⟨nonempty_path_method.1 (fun _ _ => "")
      (vdict [("paths", vdict [("/a", vdict [("get", vdict [])])])])
      [EndpointRec.mk "/a" "GET" "" false none] (by rfl),
   nonempty_path_method.2.2 "curl -X GET \x27https://e.com/a\x27"
      (CurlResult.mk "GET" "https://e.com" "/a" [] none [] false none) (by rfl)⟩

/-! ### `C2`: the content-type resolution policy -/

/-- Boolean string-list membership (claim-side vocabulary). -/
def memStr (xs : List String) (s : String) : Bool := xs.any fun x => x = s

/-- The claim-side decision: first priority hit among the content keys, else
the first declared content key, else the first priority hit in `consumes`,
else the first `consumes` entry, else nothing (the default applies). -/
def resolvePriorityCT (contentKeys consumes : List String) : Option String :=
  match content_type_priority.find? (fun ct => memStr contentKeys ct) with
  | some ct => some ct
  | none =>
    match contentKeys with
    | k :: _ => some k
    | [] =>
      match content_type_priority.find? (fun ct => memStr consumes ct) with
      | some ct => some ct
      | none =>
        match consumes with
        | c :: _ => some c
        | [] => none

theorem dictGet_isSome_memStr (kvs : List (String × PyVal)) (k : String) :
    (dictGet kvs k).isSome = memStr (kvs.map Prod.fst) k := by
  induction kvs with
  | nil => simp [dictGet, memStr]
  | cons kv rest ih =>
    obtain ⟨k0, v0⟩ := kv
    by_cases h : k0 = k
    · simp [dictGet, memStr, h]
    · simp [dictGet, memStr, h] at ih ⊢
      exact ih

theorem priorityScan_dict (prio : List String) (ckvs : List (String × PyVal)) :
    priorityScan prio (vdict ckvs)
      = Except.ok (prio.find? (fun ct => memStr (ckvs.map Prod.fst) ct)) := by
  induction prio with
  | nil => rfl
  | cons ct rest ih =>
    unfold priorityScan
    simp only [pyIn, exceptBind_ok, List.find?]
    rw [dictGet_isSome_memStr]
    by_cases h : memStr (ckvs.map Prod.fst) ct = true
    · simp [h, exceptPure]
    · simp only [Bool.not_eq_true] at h
      simp [h, ih]

theorem vstrList_any (xs : List String) (ct : String) :
    (xs.map vstr).any (fun x =>
      match x with
      | vstr t => t = ct
      | _ => false) = memStr xs ct := by
  induction xs with
  | nil => rfl
  | cons x rest ih =>
    simp only [memStr, List.map, List.any_cons] at ih ⊢
    rw [ih]

theorem priorityScan_strlist (prio : List String) (cons : List String) :
    priorityScan prio (vlist (cons.map vstr))
      = Except.ok (prio.find? (fun ct => memStr cons ct)) := by
  induction prio with
  | nil => rfl
  | cons ct rest ih =>
    unfold priorityScan
    simp only [pyIn, exceptBind_ok, List.find?]
    rw [vstrList_any]
    by_cases h : memStr cons ct = true
    · simp [h, exceptPure]
    · simp only [Bool.not_eq_true] at h
      simp [h, ih]

/-- Skipped path entries: no match, or a matching dict whose operation
lookup is falsy (`continue`). -/
theorem ctLoop_skip_append (ml path : String) (pre xs : List (String × PyVal))
    (h : ∀ qm ∈ pre, pathMatches qm.1 path = false ∨
      ∃ mk', qm.2 = vdict mk'
        ∧ pyTruthy ((dictGet mk' ml).getD vnone) = false) :
    ctLoop ml path (pre ++ xs) = ctLoop ml path xs := by
  induction pre with
  | nil => rfl
  | cons qm pre' ih =>
    obtain ⟨q, m'⟩ := qm
    have hh := h (q, m') (List.mem_cons_self _ _)
    have ht : ∀ qm ∈ pre', pathMatches qm.1 path = false ∨
        ∃ mk', qm.2 = vdict mk'
          ∧ pyTruthy ((dictGet mk' ml).getD vnone) = false :=
      fun qm hqm => h qm (List.mem_cons_of_mem _ hqm)
    rcases hh with hq | ⟨mk', hm', hf⟩
    · simp only at hq
      rw [List.cons_append]
      have hstep : ctLoop ml path ((q, m') :: (pre' ++ xs)) = ctLoop ml path (pre' ++ xs) := by
        cases m' <;> rw [ctLoop] <;> simp [hq]
      rw [hstep]
      exact ih ht
    · simp only at hm'
      subst hm'
      rw [List.cons_append, ctLoop]
      by_cases hq : pathMatches q path = true
      · simp only [hq, if_true, hf]
        simpa using ih ht
      · simp only [Bool.not_eq_true] at hq
        simp only [hq, Bool.false_eq_true, if_false]
        exact ih ht

/-- With no matching entry at all, the loop falls through to the default. -/
theorem ctLoop_default (ml path : String) (items : List (String × PyVal))
    (h : ∀ qm ∈ items, pathMatches qm.1 path = false) :
    ctLoop ml path items = Except.ok (vstr "application/json") := by
  induction items with
  | nil => rfl
  | cons qm rest ih =>
    obtain ⟨q, m'⟩ := qm
    have hq := h (q, m') (List.mem_cons_self _ _)
    simp only at hq
    have ht := fun x hx => h x (List.mem_cons_of_mem (q, m') hx)
    cases m' <;> rw [ctLoop] <;> simp [hq, ih ht]

/-- Evaluating the located entry: the loop's answer on a matching entry with
a truthy dict operation is the claim-side priority decision, falling through
to the remaining entries only when content and consumes are both empty. -/
theorem ctLoop_located (ml path p : String)
    (mkvs opkvs rbkvs ckvs : List (String × PyVal)) (consStrs : List String)
    (post : List (String × PyVal))
    (hmatch : pathMatches p path = true)
    (hop : dictGet mkvs ml = some (vdict opkvs))
    (hopne : opkvs.isEmpty = false)
    (hrb : (dictGet opkvs "requestBody").getD (vdict []) = vdict rbkvs)
    (hct : (dictGet rbkvs "content").getD (vdict []) = vdict ckvs)
    (hcons : (dictGet opkvs "consumes").getD (vlist []) = vlist (consStrs.map vstr)) :
    ctLoop ml path ((p, vdict mkvs) :: post)
      = match resolvePriorityCT (ckvs.map Prod.fst) consStrs with
        | some ct => Except.ok (vstr ct)
        | none => ctLoop ml path post := by
  rw [ctLoop]
  simp only [hmatch, if_true]
  rw [hop]
  simp only [Option.getD_some, pyTruthy, hopne, Bool.not_false, Bool.true_eq_false,
    if_false, Bool.not_true, pyGet, exceptBind_ok]
  rw [hrb]
  simp only [pyGet, exceptBind_ok]
  rw [hct]
  simp only [exceptBind_ok]
  rw [priorityScan_dict]
  simp only [exceptBind_ok]
  cases hfind : content_type_priority.find? (fun ct => memStr (ckvs.map Prod.fst) ct) with
  | some ct => simp [resolvePriorityCT, hfind, exceptPure]
  | none =>
    simp only []
    cases ckvs with
    | cons kv tl =>
      simp only [List.map_cons] at hfind
      simp [resolvePriorityCT, hfind, pyTruthy, exceptPure]
    | nil =>
      simp only [List.map_nil] at hfind
      simp only [pyTruthy, List.isEmpty_nil, Bool.not_true, Bool.false_eq_true, if_false]
      rw [hcons]
      simp only [pyGet, exceptBind_ok]
      rw [priorityScan_strlist]
      simp only [exceptBind_ok]
      cases hfind2 : content_type_priority.find? (fun ct => memStr consStrs ct) with
      | some ct => simp [resolvePriorityCT, hfind, hfind2, exceptPure]
      | none =>
        cases consStrs with
        | cons c cs => simp [resolvePriorityCT, hfind, hfind2, pyTruthy, exceptPure]
        | nil => simp [resolvePriorityCT, hfind, hfind2, pyTruthy]

/-- `C2`: when the queried (method, path) is located at a path entry (all
earlier entries are non-matching or have a missing/falsy operation, the
located entry matches by normalized-template or exact comparison and its
operation is a non-empty dict), the resolver returns the first
priority-list content type present among the operation's
`requestBody.content` keys — independent of their declaration order — else
the first declared content key, else the first priority hit in the legacy
`consumes` list, else its first entry; and when nothing is found there and
no later entry matches, the `application/json` default. -/
theorem content_type_priority_resolution
    (method path : String) (okvs pre post : List (String × PyVal)) (p : String)
    (mkvs opkvs rbkvs ckvs : List (String × PyVal)) (consStrs : List String)
    (pathItems : List (String × PyVal))
    (hsplit : pathItems = pre ++ (p, vdict mkvs) :: post)
    (hpaths : dictGet okvs "paths" = some (vdict pathItems))
    (hpre : ∀ qm ∈ pre, pathMatches qm.1 path = false ∨
      ∃ mk', qm.2 = vdict mk'
        ∧ pyTruthy ((dictGet mk' (pyLower method)).getD vnone) = false)
    (hmatch : pathMatches p path = true)
    (hop : dictGet mkvs (pyLower method) = some (vdict opkvs))
    (hopne : opkvs.isEmpty = false)
    (hrb : (dictGet opkvs "requestBody").getD (vdict []) = vdict rbkvs)
    (hct : (dictGet rbkvs "content").getD (vdict []) = vdict ckvs)
    (hcons : (dictGet opkvs "consumes").getD (vlist []) = vlist (consStrs.map vstr)) :
    extract_content_type_from_openapi (vdict okvs) method path
      = (match resolvePriorityCT (ckvs.map Prod.fst) consStrs with
         | some ct => Except.ok (vstr ct)
         | none => ctLoop (pyLower method) path post)
    ∧ (resolvePriorityCT (ckvs.map Prod.fst) consStrs = none →
       (∀ qm ∈ post, pathMatches qm.1 path = false) →
       extract_content_type_from_openapi (vdict okvs) method path
         = Except.ok (vstr "application/json")) := by
  have hstart : extract_content_type_from_openapi (vdict okvs) method path
      = ctLoop (pyLower method) path pathItems := by
    unfold extract_content_type_from_openapi
    simp only [pyGet, exceptBind_ok, hpaths, Option.getD_some]
  have hmain : extract_content_type_from_openapi (vdict okvs) method path
      = match resolvePriorityCT (ckvs.map Prod.fst) consStrs with
        | some ct => Except.ok (vstr ct)
        | none => ctLoop (pyLower method) path post := by
    rw [hstart, hsplit, ctLoop_skip_append (pyLower method) path pre _ hpre,
      ctLoop_located (pyLower method) path p mkvs opkvs rbkvs ckvs consStrs post
        hmatch hop hopne hrb hct hcons]
  refine ⟨hmain, fun hnone hpost => ?_⟩
  rw [hmain, hnone]
  exact ctLoop_default (pyLower method) path post hpost

set_option maxRecDepth 10000 in
/-- `C2` witness: an operation declaring `multipart/form-data` and
`application/json` resolves to `multipart/form-data` in either declaration
order. -/
theorem content_type_priority_resolution_witness :
    extract_content_type_from_openapi
      (vdict [("paths", vdict [("/u", vdict [("post", vdict [("requestBody",
        vdict [("content", vdict [("multipart/form-data", vdict []),
          ("application/json", vdict [])])])])])])])
      "POST" "/u" = Except.ok (vstr "multipart/form-data")
    ∧ extract_content_type_from_openapi
      (vdict [("paths", vdict [("/u", vdict [("post", vdict [("requestBody",
        vdict [("content", vdict [("application/json", vdict []),
          ("multipart/form-data", vdict [])])])])])])])
      "POST" "/u" = Except.ok (vstr "multipart/form-data") := by
  constructor
  · have h := (content_type_priority_resolution "POST" "/u"
      [("paths", vdict [("/u", vdict [("post", vdict [("requestBody",
        vdict [("content", vdict [("multipart/form-data", vdict []),
          ("application/json", vdict [])])])])])])]
      [] [] "/u"
      [("post", vdict [("requestBody", vdict [("content",
        vdict [("multipart/form-data", vdict []), ("application/json", vdict [])])])])]
      [("requestBody", vdict [("content", vdict [("multipart/form-data", vdict []),
        ("application/json", vdict [])])])]
      [("content", vdict [("multipart/form-data", vdict []),
        ("application/json", vdict [])])]
      [("multipart/form-data", vdict []), ("application/json", vdict [])]
      []
      [("/u", vdict [("post", vdict [("requestBody", vdict [("content",
        vdict [("multipart/form-data", vdict []),
          ("application/json", vdict [])])])])])]
      (by rfl) (by rfl) (by intro qm hqm; cases hqm) (by rfl) (by rfl) (by rfl)
      (by rfl) (by rfl) (by rfl)).1
    exact h.trans (by rfl)
  · have h := (content_type_priority_resolution "POST" "/u"
      [("paths", vdict [("/u", vdict [("post", vdict [("requestBody",
        vdict [("content", vdict [("application/json", vdict []),
          ("multipart/form-data", vdict [])])])])])])]
      [] [] "/u"
      [("post", vdict [("requestBody", vdict [("content",
        vdict [("application/json", vdict []), ("multipart/form-data", vdict [])])])])]
      [("requestBody", vdict [("content", vdict [("application/json", vdict []),
        ("multipart/form-data", vdict [])])])]
      [("content", vdict [("application/json", vdict []),
        ("multipart/form-data", vdict [])])]
      [("application/json", vdict []), ("multipart/form-data", vdict [])]
      []
      [("/u", vdict [("post", vdict [("requestBody", vdict [("content",
        vdict [("application/json", vdict []),
          ("multipart/form-data", vdict [])])])])])]
      (by rfl) (by rfl) (by intro qm hqm; cases hqm) (by rfl) (by rfl) (by rfl)
      (by rfl) (by rfl) (by rfl)).1
    exact h.trans (by rfl)

/-! ### `C7`: a heap model, to state that resolution and extraction never
mutate the source document.  Dicts live behind addresses; every dict display
or comprehension of the source is an allocation, every dict-entry assignment
a write.  The two embedded functions are re-read from the source at this
level: `resolve_ref` performs reads only (plus the allocation of its empty
fallback object), `extract_schema_properties` additionally writes — but only
into its freshly allocated result dict. -/

/-- Heap values: dicts are references into the heap. -/
inductive HVal where
  | hnone : HVal
  | hbool : Bool → HVal
  | hint : Int → HVal
  | hfloat : String → HVal
  | hstr : String → HVal
  | hlist : List HVal → HVal
  | href : Nat → HVal

abbrev Heap := List (List (String × HVal))

def hDictGet : List (String × HVal) → String → Option HVal
  | [], _ => none
  | (k, v) :: rest, key => if k = key then some v else hDictGet rest key

def hDictSet : List (String × HVal) → String → HVal → List (String × HVal)
  | [], key, v => [(key, v)]
  | (k, w) :: rest, key, v =>
    if k = key then (k, v) :: rest else (k, w) :: hDictSet rest key v

/-- The cells of the dict at address `a` (missing addresses read as empty,
they are never produced). -/
def heapCells : Heap → Nat → List (String × HVal)
  | [], _ => []
  | c :: _, 0 => c
  | _ :: t, Nat.succ n => heapCells t n

/-- Allocate a fresh dict. -/
def heapAlloc (h : Heap) (cells : List (String × HVal)) : Nat × Heap :=
  (h.length, h ++ [cells])

/-- Replace the cells at an address (in-place dict mutation). -/
def heapSetCells : Heap → Nat → List (String × HVal) → Heap
  | [], _, _ => []
  | _ :: t, 0, cells => cells :: t
  | c :: t, Nat.succ n, cells => c :: heapSetCells t n cells

/-- Truthiness at heap level (a dict is truthy iff non-empty). -/
def pyTruthyH (h : Heap) : HVal → Bool
  | HVal.hnone => false
  | HVal.hbool b => b
  | HVal.hint n => n ≠ 0
  | HVal.hfloat _ => true
  | HVal.hstr s => s ≠ ""
  | HVal.hlist xs => !xs.isEmpty
  | HVal.href a => !(heapCells h a).isEmpty

/-- `needle in container` at heap level. -/
def pyInH (needle : String) (h : Heap) : HVal → Except String Bool
  | HVal.href a => Except.ok (hDictGet (heapCells h a) needle).isSome
  | HVal.hstr s => Except.ok (isSubstr needle.data s.data)
  | HVal.hlist xs => Except.ok (xs.any fun x =>
      match x with
      | HVal.hstr t => t = needle
      | _ => false)
  | _ => Except.error "TypeError: argument is not iterable"

/-- `obj[key]` at heap level. -/
def pyGetItemH (h : Heap) (obj : HVal) (key : String) : Except String HVal :=
  match obj with
  | HVal.href a =>
    (match hDictGet (heapCells h a) key with
     | some v => Except.ok v
     | none => Except.error "KeyError")
  | _ => Except.error "TypeError: not subscriptable"

/-- `resolve_ref`'s traversal, reading dicts through the heap. -/
def refTraverseH (h : Heap) : List String → HVal → Option HVal
  | [], obj => some obj
  | part :: rest, HVal.href a =>
    (match hDictGet (heapCells h a) part with
     | some v => refTraverseH h rest v
     | none => none)
  | _ :: _, _ => none

/-- `resolve_ref` at heap level: reads only; every `return \x7b\x7d` is the
allocation of a fresh empty dict. -/
def resolve_refH (ref : String) (openapi_spec : HVal) (h : Heap) : HVal × Heap :=
  if startsWithHashSlash ref then
    match refTraverseH h (refParts ref) openapi_spec with
    | some (HVal.href a) => (HVal.href a, h)
    | _ =>
      let ah := heapAlloc h []
      (HVal.href ah.1, ah.2)
  else
    let ah := heapAlloc h []
    (HVal.href ah.1, ah.2)

/-- The shared `$ref` substitution step at heap level. -/
def refSubstituteH (obj spec : HVal) (h : Heap) : Except String (HVal × Heap) := do
  let hasRef ← pyInH "$ref" h obj
  if hasRef then do
    let r ← pyGetItemH h obj "$ref"
    match r with
    | HVal.hstr refs =>
      let rr := resolve_refH refs spec h
      pure (if pyTruthyH rr.2 rr.1 then rr.1 else obj, rr.2)
    | _ => Except.error "AttributeError: startswith"
  else pure (obj, h)

/-- One property descriptor at heap level: the raw display is one
allocation, the `None`-dropping comprehension a second. -/
def propDescriptorH (prop_name : String) (required : HVal)
    (pcells : List (String × HVal)) (h : Heap) :
    Except String (Nat × Nat × Heap) := do
  let inReq ← pyInH prop_name h required
  let raw : List (String × HVal) :=
    [("type", (hDictGet pcells "type").getD (HVal.hstr "string")),
     ("required", HVal.hbool inReq),
     ("title", (hDictGet pcells "title").getD (HVal.hstr prop_name)),
     ("format", (hDictGet pcells "format").getD HVal.hnone),
     ("minLength", (hDictGet pcells "minLength").getD HVal.hnone),
     ("maxLength", (hDictGet pcells "maxLength").getD HVal.hnone),
     ("minimum", (hDictGet pcells "minimum").getD HVal.hnone),
     ("maximum", (hDictGet pcells "maximum").getD HVal.hnone),
     ("pattern", (hDictGet pcells "pattern").getD HVal.hnone),
     ("description", (hDictGet pcells "description").getD HVal.hnone)]
  let ah1 := heapAlloc h raw
  let filt := raw.filter fun kv =>
    match kv.2 with
    | HVal.hnone => false
    | _ => true
  let ah2 := heapAlloc ah1.2 filt
  pure (ah1.1, ah2.1, ah2.2)

/-- The property loop at heap level: the two successive assignments
`result[prop_name] = ...` are writes into the result dict at `ra`. -/
def schemaPropLoopH (spec required : HVal) (ra : Nat) :
    List (String × HVal) → Heap → Except String Heap
  | [], h => Except.ok h
  | (prop_name, prop_schema0) :: rest, h => do
    let sh ← refSubstituteH prop_schema0 spec h
    match sh.1 with
    | HVal.href pa => do
      let dh ← propDescriptorH prop_name required (heapCells sh.2 pa) sh.2
      let h3 := heapSetCells dh.2.2 ra
        (hDictSet (heapCells dh.2.2 ra) prop_name (HVal.href dh.1))
      let h4 := heapSetCells h3 ra
        (hDictSet (heapCells h3 ra) prop_name (HVal.href dh.2.1))
      schemaPropLoopH spec required ra rest h4
    | _ => Except.error "AttributeError: get"

/-- `extract_schema_properties` at heap level: resolve the schema-level
`$ref`, allocate the `.get` default and the result dict, then run the
property loop. -/
def extract_schema_propertiesH (schema0 spec : HVal) (h : Heap) :
    Except String (HVal × Heap) := do
  let sh ← refSubstituteH schema0 spec h
  match sh.1 with
  | HVal.href sa =>
    let pd := heapAlloc sh.2 []
    let props := (hDictGet (heapCells pd.2 sa) "properties").getD (HVal.href pd.1)
    let required := (hDictGet (heapCells pd.2 sa) "required").getD (HVal.hlist [])
    (match props with
     | HVal.href pa => do
       let rh := heapAlloc pd.2 []
       let h4 ← schemaPropLoopH spec required rh.1 (heapCells rh.2 pa) rh.2
       pure (HVal.href rh.1, h4)
     | _ => Except.error "AttributeError: items")
  | _ => Except.error "AttributeError: get"

theorem heapCells_append_lt (h ext : Heap) (a : Nat) (ha : a < h.length) :
    heapCells (h ++ ext) a = heapCells h a := by
  induction h generalizing a with
  | nil => cases ha
  | cons c t ih =>
    cases a with
    | zero => rfl
    | succ n => exact ih n (Nat.lt_of_succ_lt_succ ha)

theorem heapSetCells_length (h : Heap) (b : Nat) (c : List (String × HVal)) :
    (heapSetCells h b c).length = h.length := by
  induction h generalizing b with
  | nil => rfl
  | cons c0 t ih =>
    cases b with
    | zero => rfl
    | succ n => simp [heapSetCells, ih n]

theorem heapSetCells_cells_ne (h : Heap) (b : Nat) (c : List (String × HVal))
    (a : Nat) (hab : a ≠ b) :
    heapCells (heapSetCells h b c) a = heapCells h a := by
  induction h generalizing a b with
  | nil => rfl
  | cons c0 t ih =>
    cases b with
    | zero =>
      cases a with
      | zero => exact absurd rfl hab
      | succ n => rfl
    | succ m =>
      cases a with
      | zero => rfl
      | succ n => exact ih m n (fun he => hab (by rw [he]))

theorem resolve_refH_ext (ref : String) (spec : HVal) (h : Heap) :
    ∃ ext, (resolve_refH ref spec h).2 = h ++ ext := by
  unfold resolve_refH
  by_cases hs : startsWithHashSlash ref = true
  · simp only [hs, if_true]
    cases ht : refTraverseH h (refParts ref) spec with
    | some v =>
      cases v with
      | href a => exact ⟨[], (List.append_nil h).symm⟩
      | hnone => exact ⟨[[]], rfl⟩
      | hbool b => exact ⟨[[]], rfl⟩
      | hint n => exact ⟨[[]], rfl⟩
      | hfloat s => exact ⟨[[]], rfl⟩
      | hstr s => exact ⟨[[]], rfl⟩
      | hlist xs => exact ⟨[[]], rfl⟩
    | none => exact ⟨[[]], rfl⟩
  · simp only [Bool.not_eq_true] at hs
    simp only [hs, Bool.false_eq_true, if_false]
    exact ⟨[[]], rfl⟩

theorem refSubstituteH_ext (obj spec : HVal) (h : Heap) (v : HVal) (h1 : Heap)
    (hok : refSubstituteH obj spec h = Except.ok (v, h1)) :
    ∃ ext, h1 = h ++ ext := by
  unfold refSubstituteH at hok
  cases hin : pyInH "$ref" h obj with
  | error e => rw [hin] at hok; cases hok
  | ok b =>
    rw [hin] at hok
    simp only [exceptBind_ok] at hok
    cases b with
    | false =>
      simp only [Bool.false_eq_true, if_false, exceptPure, Except.ok.injEq,
        Prod.mk.injEq] at hok
      exact ⟨[], by rw [← hok.2, List.append_nil]⟩
    | true =>
      simp only [if_true] at hok
      cases hgi : pyGetItemH h obj "$ref" with
      | error e => rw [hgi] at hok; cases hok
      | ok r =>
        rw [hgi] at hok
        simp only [exceptBind_ok] at hok
        cases r with
        | hstr refs =>
          simp only [exceptPure, Except.ok.injEq, Prod.mk.injEq] at hok
          obtain ⟨ext, hext⟩ := resolve_refH_ext refs spec h
          exact ⟨ext, by rw [← hok.2, hext]⟩
        | hnone => cases hok
        | hbool b2 => cases hok
        | hint n => cases hok
        | hfloat s => cases hok
        | hlist xs => cases hok
        | href a => cases hok

theorem propDescriptorH_ext (prop_name : String) (required : HVal)
    (pcells : List (String × HVal)) (h : Heap) (a1 a2 : Nat) (h2 : Heap)
    (hok : propDescriptorH prop_name required pcells h = Except.ok (a1, a2, h2)) :
    ∃ ext, h2 = h ++ ext := by
  unfold propDescriptorH at hok
  cases hin : pyInH prop_name h required with
  | error e => rw [hin] at hok; cases hok
  | ok b =>
    rw [hin] at hok
    simp only [exceptBind_ok, heapAlloc, exceptPure, Except.ok.injEq,
      Prod.mk.injEq] at hok
    rw [← hok.2.2, List.append_assoc]
    exact ⟨_, rfl⟩

theorem heap_length_le_of_ext (h h1 : Heap) (hext : ∃ ext, h1 = h ++ ext) :
    h.length ≤ h1.length := by
  obtain ⟨ext, he⟩ := hext
  rw [he]
  simp

theorem schemaPropLoopH_preserves (spec required : HVal) (ra : Nat)
    (items : List (String × HVal)) :
    ∀ (h h' : Heap) (n : Nat), schemaPropLoopH spec required ra items h = Except.ok h' →
      n ≤ h.length → n ≤ ra →
      ∀ a, a < n → heapCells h' a = heapCells h a := by
  induction items with
  | nil =>
    intro h h' n hok _ _ a ha
    unfold schemaPropLoopH at hok
    cases hok
    rfl
  | cons pp rest ih =>
    intro h h' n hok hn hra a ha
    obtain ⟨prop_name, prop_schema0⟩ := pp
    unfold schemaPropLoopH at hok
    cases hsub : refSubstituteH prop_schema0 spec h with
    | error e => rw [hsub] at hok; cases hok
    | ok sh =>
      rw [hsub] at hok
      simp only [exceptBind_ok] at hok
      obtain ⟨sv, sheap⟩ := sh
      have hext1 : ∃ ext, sheap = h ++ ext :=
        refSubstituteH_ext prop_schema0 spec h sv sheap hsub
      cases sv with
      | href pa =>
        simp only at hok
        cases hdesc : propDescriptorH prop_name required (heapCells sheap pa) sheap with
        | error e => rw [hdesc] at hok; cases hok
        | ok dh =>
          rw [hdesc] at hok
          simp only [exceptBind_ok] at hok
          obtain ⟨da1, da2, dheap⟩ := dh
          have hext2 : ∃ ext, dheap = sheap ++ ext :=
            propDescriptorH_ext prop_name required (heapCells sheap pa) sheap
              da1 da2 dheap hdesc
          simp only at hok
          have hlen1 : n ≤ sheap.length :=
            Nat.le_trans hn (heap_length_le_of_ext h sheap hext1)
          have hlen2 : n ≤ dheap.length :=
            Nat.le_trans hlen1 (heap_length_le_of_ext sheap dheap hext2)
          have hne : a ≠ ra := Nat.ne_of_lt (Nat.lt_of_lt_of_le ha hra)
          have hcells4 := ih _ h' n hok
            (by
              rw [heapSetCells_length, heapSetCells_length]
              exact hlen2)
            hra a ha
          rw [hcells4, heapSetCells_cells_ne _ _ _ a hne,
            heapSetCells_cells_ne _ _ _ a hne]
          obtain ⟨ext2, he2⟩ := hext2
          obtain ⟨ext1, he1⟩ := hext1
          rw [he2, heapCells_append_lt sheap ext2 a (Nat.lt_of_lt_of_le ha hlen1),
            he1, heapCells_append_lt h ext1 a (Nat.lt_of_lt_of_le ha hn)]
      | hnone => simp only at hok; cases hok
      | hbool b => simp only at hok; cases hok
      | hint n2 => simp only at hok; cases hok
      | hfloat s => simp only at hok; cases hok
      | hstr s => simp only at hok; cases hok
      | hlist xs => simp only at hok; cases hok

/-- `C7`: resolving a `$ref` never mutates the source document — the heap
after `resolve_refH` extends the input heap, so every pre-existing object
(in particular the whole document) is untouched; and
`extract_schema_propertiesH` likewise preserves every pre-existing heap cell
while returning a freshly allocated result mapping (its descriptor dicts and
the result dict are all new addresses). -/
theorem resolver_does_not_mutate_document :
    (∀ (ref : String) (spec : HVal) (h : Heap),
      ∃ ext, (resolve_refH ref spec h).2 = h ++ ext)
    ∧ (∀ (schema0 spec : HVal) (h : Heap) (r : HVal) (h' : Heap),
        extract_schema_propertiesH schema0 spec h = Except.ok (r, h') →
        (∀ a, a < h.length → heapCells h' a = heapCells h a)
        ∧ ∃ ra, r = HVal.href ra ∧ h.length ≤ ra) := by
  refine ⟨resolve_refH_ext, ?_⟩
  intro schema0 spec h r h' hok
  unfold extract_schema_propertiesH at hok
  cases hsub : refSubstituteH schema0 spec h with
  | error e => rw [hsub] at hok; cases hok
  | ok sh =>
    rw [hsub] at hok
    simp only [exceptBind_ok] at hok
    obtain ⟨sv, sheap⟩ := sh
    have hext1 : ∃ ext, sheap = h ++ ext :=
      refSubstituteH_ext schema0 spec h sv sheap hsub
    cases sv with
    | href sa =>
      simp only [heapAlloc] at hok
      cases hprops : (hDictGet (heapCells (sheap ++ [[]]) sa) "properties").getD
          (HVal.href sheap.length) with
      | href pa =>
        rw [hprops] at hok
        simp only [exceptBind_ok] at hok
        cases hloop : schemaPropLoopH spec
            ((hDictGet (heapCells (sheap ++ [[]]) sa) "required").getD (HVal.hlist []))
            (sheap ++ [[]]).length
            (heapCells (sheap ++ [[]] ++ [[]]) pa) (sheap ++ [[]] ++ [[]]) with
        | error e => rw [hloop] at hok; cases hok
        | ok h4 =>
          rw [hloop] at hok
          simp only [exceptBind_ok, exceptPure, Except.ok.injEq, Prod.mk.injEq] at hok
          obtain ⟨hr, hh⟩ := hok
          subst hr
          subst hh
          have hlen1 : h.length ≤ sheap.length := heap_length_le_of_ext h sheap hext1
          constructor
          · intro a ha
            have h1 : heapCells h4 a = heapCells (sheap ++ [[]] ++ [[]]) a := by
              refine schemaPropLoopH_preserves spec _ _ _ _ h4 h.length hloop ?_ ?_ a ha
              · simp
                exact Nat.le_trans hlen1 (by omega)
              · simp
                exact Nat.le_trans hlen1 (by omega)
            rw [h1]
            obtain ⟨ext1, he1⟩ := hext1
            rw [List.append_assoc, heapCells_append_lt sheap _ a
              (Nat.lt_of_lt_of_le ha hlen1), he1,
              heapCells_append_lt h ext1 a ha]
          · refine ⟨(sheap ++ [[]]).length, rfl, ?_⟩
            simp
            omega
      | hnone => rw [hprops] at hok; cases hok
      | hbool b => rw [hprops] at hok; cases hok
      | hint n => rw [hprops] at hok; cases hok
      | hfloat s => rw [hprops] at hok; cases hok
      | hstr s => rw [hprops] at hok; cases hok
      | hlist xs => rw [hprops] at hok; cases hok
    | hnone => simp only at hok; cases hok
    | hbool b => simp only at hok; cases hok
    | hint n => simp only at hok; cases hok
    | hfloat s => simp only at hok; cases hok
    | hstr s => simp only at hok; cases hok
    | hlist xs => simp only at hok; cases hok

/-- `C7` witness: both halves applied to a concrete two-object document
heap — the resolver's heap only grows, and extraction returns a fresh result
address while the document cells are unchanged. -/
theorem resolver_does_not_mutate_document_witness :
    (∃ ext, (resolve_refH "#/a" (HVal.href 0)
      ([[("a", HVal.href 1)], []] : Heap)).2 = [[("a", HVal.href 1)], []] ++ ext)
    ∧ ((∀ a, a < ([[("properties", HVal.href 1)], []] : Heap).length →
        heapCells ([[("properties", HVal.href 1)], [], [], []] : Heap) a
          = heapCells ([[("properties", HVal.href 1)], []] : Heap) a)
      ∧ ∃ ra, HVal.href 3 = HVal.href ra
          ∧ ([[("properties", HVal.href 1)], []] : Heap).length ≤ ra) :=
  ⟨resolver_does_not_mutate_document.1 "#/a" (HVal.href 0) [[("a", HVal.href 1)], []],
   resolver_does_not_mutate_document.2 (HVal.href 0) (HVal.href 0)
     [[("properties", HVal.href 1)], []] (HVal.href 3)
     [[("properties", HVal.href 1)], [], [], []] (by rfl)⟩
